import Mathlib

/-!
Verification development for the Stack Inference and Pipeline Synthesis Engine
of the Self-Deploy repository (`Self deploy/analyzers/`).

The Python sources are shallowly embedded:

* `tech_stack_detector.py` — language/line statistics, primary-language
  selection, manifest parsing (version + framework extraction), build-tool,
  test and container-descriptor detection;
* `repository_analyzer.py`  — the confidence-score computation;
* `pipeline_generator.py`   — the GitLab CI pipeline text synthesizer.

Modelling conventions:

* File contents live in the `FileRecord` itself: `text` is the raw text a
  successful read of `fullPath` would produce (`none` = absent/unreadable),
  `jsonDoc` is the result of `json.load` on the file (`none` = unreadable or
  malformed JSON), `pomDoc` the result of `xml.etree.ElementTree.parse`
  (`none` = unreadable or malformed XML).  These fields stand for the outcome
  of the external filesystem / parsing libraries at their call boundary.
* Python string truthiness (`if s:`) is modelled by `truthyS` / `truthyO`.
* Python's stable `sorted` is modelled by the stable insertion sort
  `insertionSort`; `str.lower()` by an ASCII case fold (the repository only
  compares ASCII names); `round(x, 1)` on the non-negative ratios appearing
  here by exact decimal round-half-to-even (`rheTenths`).
* `re.search` / `re.match` uses are compiled by hand into character-list
  scanners that implement exactly the regular expressions of the source.
-/

namespace SelfDeploy

/-- Whitespace characters as recognised by Python's `str.strip` / `\s`
(ASCII fragment). -/
def isSpacePy (c : Char) : Bool :=
  c = ' ' || c = '\t' || c = '\n' || c = '\r' || c = '\x0b' || c = '\x0c'

/-- Decimal digit test (`\d`). -/
def isDigitPy (c : Char) : Bool := '0' ≤ c && c ≤ '9'

/-- Uppercase-to-lowercase ASCII table used to model `str.lower()`. -/
def asciiLowerPairs : List (Char × Char) :=
  [('A','a'),('B','b'),('C','c'),('D','d'),('E','e'),('F','f'),('G','g'),
   ('H','h'),('I','i'),('J','j'),('K','k'),('L','l'),('M','m'),('N','n'),
   ('O','o'),('P','p'),('Q','q'),('R','r'),('S','s'),('T','t'),('U','u'),
   ('V','v'),('W','w'),('X','x'),('Y','y'),('Z','z')]

/-- Lowercase one character (ASCII model of Python `str.lower`). -/
def asciiLower (c : Char) : Char :=
  match asciiLowerPairs.find? (fun p => p.1 = c) with
  | some p => p.2
  | none => c

/-- Lowercase a character list. -/
def pyLowerL (l : List Char) : List Char := l.map asciiLower

/-- Lowercase a string (model of Python `str.lower`). -/
def pyLower (s : String) : String := ⟨pyLowerL s.data⟩

/-- Strip leading and trailing whitespace (model of Python `str.strip`). -/
def pyStripL (l : List Char) : List Char :=
  ((l.dropWhile isSpacePy).reverse.dropWhile isSpacePy).reverse

/-- Lexicographic comparison of character lists by code point, as Python
compares strings. -/
def lexLeB : List Char → List Char → Bool
  | [], _ => true
  | _ :: _, [] => false
  | a :: as, b :: bs => if a = b then lexLeB as bs else decide (a.val < b.val)

/-- String order used by `sorted` on strings. -/
def strLeB (a b : String) : Bool := lexLeB a.data b.data

/-- Substring test (Python's `needle in haystack` on strings). -/
def isInfixB (n : List Char) : List Char → Bool
  | [] => n.isEmpty
  | c :: t => n.isPrefixOf (c :: t) || isInfixB n t

/-- Substring test on strings. -/
def containsSub (needle hay : String) : Bool := isInfixB needle.data hay.data

/-- Stable insertion of `a` into a sorted list: `a` goes in front of the first
element it compares `le` to, so earlier-inserted elements win ties. -/
def insertS (le : α → α → Bool) (a : α) : List α → List α
  | [] => [a]
  | b :: bs => if le a b then a :: b :: bs else b :: insertS le a bs

/-- Stable insertion sort, the model of Python's stable `sorted`. -/
def insertionSort (le : α → α → Bool) : List α → List α
  | [] => []
  | x :: xs => insertS le x (insertionSort le xs)

/-- Split a character list at newline characters.  `splitLinesL s` always has
one more entry than `s` has newlines; a trailing newline yields a final `[]`. -/
def splitLinesL : List Char → List (List Char)
  | [] => [[]]
  | c :: cs =>
    if c = '\n' then [] :: splitLinesL cs
    else (c :: (splitLinesL cs).headD []) :: (splitLinesL cs).tail

/-- Python truthiness of a string. -/
def truthyS (s : String) : Bool := s ≠ ""

/-- Python truthiness of an optional string (`None` and `""` are falsy). -/
def truthyO : Option String → Bool
  | none => false
  | some s => truthyS s

/-- Sorted list of the distinct elements of `l` — Python's
`sorted(list(set(l)))` for strings. -/
def sortedSet (l : List String) : List String := insertionSort strLeB l.dedup

/-- Round-half-to-even of `1000 * l / T` (exact decimal rounding), i.e. ten
times the percentage `round(l / T * 100, 1)` that Python computes. -/
def rheTenths (l T : Nat) : Nat :=
  if 2 * (1000 * l % T) < T then 1000 * l / T
  else if T < 2 * (1000 * l % T) then 1000 * l / T + 1
  else if (1000 * l / T) % 2 = 0 then 1000 * l / T
  else 1000 * l / T + 1

/-- Percentage value `round(l / T * 100, 1)` as an exact rational. -/
def pctQ (l T : Nat) : ℚ := (rheTenths l T : ℚ) / 10

/-! Data model.  A `FileRecord` is one entry of the analyzer's file list
(`repository_analyzer._analyze_files`), carrying the observable outcome of
reading / parsing its `full_path` (see the module docstring). -/

/-- Result of `json.load` on a `package.json`, restricted to the fields the
detector reads: the keys of `dependencies` and `devDependencies`, and the
string under `engines.node` when present. -/
structure PkgJson where
  dependencies : List String := []
  devDependencies : List String := []
  enginesNode : Option String := none

/-- One child of the `<properties>` element of a `pom.xml`: its (possibly
namespace-qualified) tag and its text. -/
structure PomProp where
  tag : String
  text : Option String

/-- Result of `ElementTree.parse` on a `pom.xml`, restricted to what the
detector queries: the `properties` children found with and without the Maven
namespace (with `none` meaning the query found no element), and the
`artifactId` resolution for each `dependency` element found with and without
the namespace.  A dependency entry is the outcome of
`dependency.find('artifactId') or dependency.find('.//{ns}artifactId')`:
`none` = no element, `some none` = element with no text,
`some (some s)` = element with text `s`. -/
structure PomDoc where
  propsNs : Option (List PomProp) := none
  propsPlain : Option (List PomProp) := none
  depsNs : List (Option (Option String)) := []
  depsPlain : List (Option (Option String)) := []

/-- One filesystem entry as produced by the repository analyzer. -/
structure FileRecord where
  name : String := ""
  ftype : String := ""
  extension : String := ""
  path : String := ""
  fullPath : Option String := none
  size : Nat := 0
  text : Option String := none
  jsonDoc : Option PkgJson := none
  pomDoc : Option PomDoc := none

/-- Language statistics entry (`{'lines': …, 'percentage': …}`). -/
structure LangStat where
  lines : Nat
  percentage : ℚ
deriving DecidableEq

/-- Version information (`{'language_version': …, 'framework_versions': …}`). -/
structure VersionInfo where
  languageVersion : String
  frameworkVersions : List (String × String) := []

/-- The detector's result dictionary (`detect_tech_stack`). -/
structure TechStack where
  primaryLanguage : String
  languageStats : List (String × LangStat)
  versionInfo : VersionInfo
  frameworks : List String
  buildTools : List String
  packageManagers : List String
  hasTests : Bool
  hasDockerfile : Bool

/-! Source Tree Classifier (`TechStackDetector`). -/

/-- Extension-to-language table (`self.language_extensions`). -/
def languageExtensions : List (String × String) :=
  [(".js", "JavaScript"), (".jsx", "JavaScript"), (".ts", "TypeScript"),
   (".tsx", "TypeScript"), (".mjs", "JavaScript"), (".cjs", "JavaScript"),
   (".py", "Python"), (".pyw", "Python"), (".pyx", "Python"),
   (".java", "Java"), (".kt", "Kotlin"), (".kts", "Kotlin"),
   (".go", "Go"),
   (".rs", "Rust"), (".cpp", "C++"), (".cc", "C++"), (".cxx", "C++"),
   (".c", "C"), (".h", "C/C++"), (".hpp", "C++"), (".cs", "C#"),
   (".php", "PHP"), (".rb", "Ruby"), (".swift", "Swift"),
   (".scala", "Scala"), (".dart", "Dart")]

/-- Per-language default versions (`self.default_versions`). -/
def defaultVersions : List (String × String) :=
  [("Java", "11"), ("Kotlin", "1.8"), ("Go", "1.19"),
   ("TypeScript", "5.0"), ("JavaScript", "ES2022"), ("Python", "3.9")]

/-- Count of significant (non-blank) lines of a text
(`sum(1 for line in lines if line.strip())`). -/
def countSignificant (t : String) : Nat :=
  ((splitLinesL t.data).filter (fun l => l.any (fun c => !isSpacePy c))).length

/-- Model of `_count_file_lines`: 0 unless a project dir and a full path are
known, the file exists and is readable (`text = some …`) and is at most
1 MiB large; otherwise the significant-line count of its text. -/
def countFileLines (pd : Option String) (r : FileRecord) : Nat :=
  if truthyO pd && truthyO r.fullPath then
    match r.text with
    | none => 0
    | some t => if r.size > 1024 * 1024 then 0 else countSignificant t
  else 0

/-- Add `n` lines for language `lang` to the accumulator, preserving
first-occurrence order (Python dict insertion order). -/
def addLang : List (String × Nat) → String → Nat → List (String × Nat)
  | [], lang, n => [(lang, n)]
  | (k, m) :: rest, lang, n =>
    if k = lang then (k, m + n) :: rest else (k, m) :: addLang rest lang n

/-- One iteration of the accumulation loop of `_count_lines_by_language`. -/
def langStep (pd : Option String) (acc : List (String × Nat) × Nat)
    (r : FileRecord) : List (String × Nat) × Nat :=
  if r.ftype = "file" then
    match languageExtensions.lookup (pyLower r.extension) with
    | some lang =>
      if countFileLines pd r > 0 then
        (addLang acc.1 lang (countFileLines pd r), acc.2 + countFileLines pd r)
      else acc
    | none => acc
  else acc

/-- Accumulation loop of `_count_lines_by_language`: per-language line counts
(in first-occurrence order) together with the running grand total. -/
def langLinesAndTotal (files : List FileRecord) (pd : Option String) :
    List (String × Nat) × Nat :=
  files.foldl (langStep pd) ([], 0)

/-- Model of `_count_lines_by_language`: percentages over the grand total,
sorted by descending line count (stably, like Python's `sorted`). -/
def countLinesByLanguage (files : List FileRecord) (pd : Option String) :
    List (String × LangStat) :=
  let p := langLinesAndTotal files pd
  if p.2 > 0 then
    insertionSort (fun a b => decide (b.2.lines ≤ a.2.lines))
      (p.1.map (fun q => (q.1, LangStat.mk q.2 (pctQ q.2 p.2))))
  else []

/-- Configuration pseudo-languages excluded from primary-language selection
(`exclude_languages`). -/
def excludeLanguages : List String :=
  ["JSON", "YAML", "XML", "Markdown", "HTML", "CSS"]

/-- Model of `_detect_primary_language`. -/
def detectPrimaryLanguage (stats : List (String × LangStat)) : String :=
  match stats with
  | [] => "Unknown"
  | (l0, _) :: _ =>
    match stats.find? (fun p => !(excludeLanguages.contains p.1)) with
    | some p => p.1
    | none => l0

/-- Model of `_find_file`: the first record with the given name (the code
returns its `full_path`; we return the record, and every caller guards on the
truthiness of its `fullPath` exactly where the code guards on the returned
path). -/
def findFileRec (files : List FileRecord) (nm : String) : Option FileRecord :=
  files.find? (fun r => r.name == nm)

/-! Manifest parsers: version extraction.  Each `…At` function tries the
regular expression anchored at the start of its argument; `scanOpt` tries
every position left to right, which is exactly `re.search`. -/

/-- Longest digit run and the remainder. -/
def takeDigits (s : List Char) : List Char × List Char :=
  (s.takeWhile isDigitPy, s.dropWhile isDigitPy)

/-- Match a literal at the start, returning the remainder. -/
def matchLit : List Char → List Char → Option (List Char)
  | [], s => some s
  | _, [] => none
  | l :: ls, c :: cs => if l = c then matchLit ls cs else none

/-- Leftmost-position search: try `f` at each suffix, left to right
(the semantics of `re.search`). -/
def scanOpt (f : List Char → Option α) : List Char → Option α
  | [] => f []
  | c :: cs =>
    match f (c :: cs) with
    | some v => some v
    | none => scanOpt f cs

/-- Parse `\d+\.\d+(?:\.\d+)?` at the start, returning the matched text. -/
def verTail (s : List Char) : Option (List Char) :=
  if s.takeWhile isDigitPy = [] then none
  else
    match s.dropWhile isDigitPy with
    | '.' :: r2 =>
      if r2.takeWhile isDigitPy = [] then none
      else
        match r2.dropWhile isDigitPy with
        | '.' :: r4 =>
          if r4.takeWhile isDigitPy = [] then
            some (s.takeWhile isDigitPy ++ '.' :: r2.takeWhile isDigitPy)
          else
            some (s.takeWhile isDigitPy ++ '.' :: r2.takeWhile isDigitPy ++
              '.' :: r4.takeWhile isDigitPy)
        | _ => some (s.takeWhile isDigitPy ++ '.' :: r2.takeWhile isDigitPy)
    | _ => none

/-- Parse `\d+(?:\.\d+)?` at the start, returning the matched text. -/
def verDopt (s : List Char) : Option (List Char) :=
  let p1 := takeDigits s
  if p1.1 = [] then none else
  match p1.2 with
  | '.' :: r2 =>
    let p2 := takeDigits r2
    if p2.1 = [] then some p1.1 else some (p1.1 ++ '.' :: p2.1)
  | _ => some p1.1

/-- Parse `\d+\.\d+` at the start, returning the matched text. -/
def verDD (s : List Char) : Option (List Char) :=
  let p1 := takeDigits s
  if p1.1 = [] then none else
  match p1.2 with
  | '.' :: r2 =>
    let p2 := takeDigits r2
    if p2.1 = [] then none else some (p1.1 ++ '.' :: p2.1)
  | _ => none

/-- Anchored match of `go\s+(\d+\.\d+(?:\.\d+)?)`. -/
def goAt (s : List Char) : Option (List Char) := do
  let s1 ← matchLit "go".data s
  let sp := s1.takeWhile isSpacePy
  if sp = [] then none else verTail (s1.dropWhile isSpacePy)

/-- Model of `_extract_go_version` on the text of a `go.mod`. -/
def searchGoVersion (t : String) : Option String :=
  (scanOpt goAt t.data).map (fun l => ⟨l⟩)

/-- Anchored match of `sourceCompatibility\s*=\s*["\x27]?(\d+(?:\.\d+)?)`. -/
def srcCompatAt (s : List Char) : Option (List Char) := do
  let s1 ← matchLit "sourceCompatibility".data s
  let s3 ← matchLit "=".data (s1.dropWhile isSpacePy)
  let s4 := s3.dropWhile isSpacePy
  let s5 := match s4 with
    | '"' :: r => r
    | '\x27' :: r => r
    | r => r
  verDopt s5

/-- Anchored match of `JavaVersion\.VERSION_(\d+)`. -/
def javaVersionUAt (s : List Char) : Option (List Char) := do
  let s1 ← matchLit "JavaVersion.VERSION_".data s
  let p := takeDigits s1
  if p.1 = [] then none else some p.1

/-- Model of `_extract_java_version_from_gradle` on the text of a
`build.gradle`. -/
def extractJavaVersionFromGradle (t : String) : Option String :=
  match scanOpt srcCompatAt t.data with
  | some v => some ⟨v⟩
  | none => (scanOpt javaVersionUAt t.data).map (fun l => ⟨l⟩)

/-- Model of `_extract_java_version_from_pom`: the `or` of the two
`properties` queries uses ElementTree truthiness (an element with no children
is falsy), then the first property whose tag contains `java.version` or
`maven.compiler.source` is returned (its text, which may be absent). -/
def extractJavaVersionFromPom (doc : Option PomDoc) : Option String :=
  match doc with
  | none => none
  | some d =>
    let props := match d.propsNs with
      | some (p :: ps) => some (p :: ps)
      | _ => d.propsPlain
    match props with
    | none => none
    | some ps =>
      match ps.find? (fun p =>
          isInfixB "java.version".data p.tag.data ||
          isInfixB "maven.compiler.source".data p.tag.data) with
      | some p => p.text
      | none => none

/-- Anchored match of `requires-python\s*=\s*["\x27]([^"\x27]+)["\x27]`,
returning the quoted body. -/
def requiresPyAt (s : List Char) : Option (List Char) := do
  let s1 ← matchLit "requires-python".data s
  let s3 ← matchLit "=".data (s1.dropWhile isSpacePy)
  let s4 := s3.dropWhile isSpacePy
  match s4 with
  | c :: r =>
    if c = '"' || c = '\x27' then
      let body := r.takeWhile (fun x => !(x = '"' || x = '\x27'))
      let rest := r.dropWhile (fun x => !(x = '"' || x = '\x27'))
      if body = [] then none else
      match rest with
      | q :: _ => if q = '"' || q = '\x27' then some body else none
      | [] => none
    else none
  | [] => none

/-- Model of `_extract_python_version_from_pyproject` on the text of a
`pyproject.toml`. -/
def extractPythonVersionFromPyproject (t : String) : Option String :=
  match scanOpt requiresPyAt t.data with
  | some spec => (scanOpt verDD spec).map (fun l => ⟨l⟩)
  | none => none

/-- Model of `_extract_node_version` on the parsed `package.json`. -/
def extractNodeVersion (j : Option PkgJson) : Option String :=
  match j with
  | none => none
  | some d =>
    match d.enginesNode with
    | none => none
    | some spec => (scanOpt verDopt spec.data).map (fun l => ⟨l⟩)

/-- Version extraction from a record's raw text, `none` when unreadable. -/
def exGo (r : FileRecord) : Option String :=
  match r.text with
  | some t => searchGoVersion t
  | none => none

/-- Gradle version extraction from a record. -/
def exGradle (r : FileRecord) : Option String :=
  match r.text with
  | some t => extractJavaVersionFromGradle t
  | none => none

/-- Pyproject version extraction from a record. -/
def exPyproject (r : FileRecord) : Option String :=
  match r.text with
  | some t => extractPythonVersionFromPyproject t
  | none => none

/-- Pom version extraction from a record. -/
def exPom (r : FileRecord) : Option String := extractJavaVersionFromPom r.pomDoc

/-- Node version extraction from a record. -/
def exNode (r : FileRecord) : Option String := extractNodeVersion r.jsonDoc

/-- Find a manifest by name and run its extractor under the guards of
`_detect_versions` (`if path and project_dir:`). -/
def tryManifest (files : List FileRecord) (pd : Option String) (nm : String)
    (ex : FileRecord → Option String) : Option String :=
  match findFileRec files nm with
  | some r => if truthyO r.fullPath && truthyO pd then ex r else none
  | none => none

/-- Override the current version when the extractor produced a truthy value
(`if version: version_info['language_version'] = version`). -/
def overrideIf (cur : String) : Option String → String
  | some v => if truthyS v then v else cur
  | none => cur

/-- Model of `_detect_versions`. -/
def detectVersions (files : List FileRecord) (pd : Option String)
    (primary : String) : VersionInfo :=
  let base := (defaultVersions.lookup primary).getD "latest"
  let lv :=
    if primary = "Java" then
      overrideIf (overrideIf base (tryManifest files pd "pom.xml" exPom))
        (tryManifest files pd "build.gradle" exGradle)
    else if primary = "Go" then
      overrideIf base (tryManifest files pd "go.mod" exGo)
    else if primary = "Python" then
      overrideIf base (tryManifest files pd "pyproject.toml" exPyproject)
    else if primary = "TypeScript" || primary = "JavaScript" then
      overrideIf base (tryManifest files pd "package.json" exNode)
    else base
  { languageVersion := lv, frameworkVersions := [] }

/-! Manifest parsers: framework extraction. -/

/-- Set-style accumulation: add if not already present. -/
def addFw (acc : List String) (x : String) : List String :=
  if acc.contains x then acc else acc ++ [x]

/-- Dependency-key to framework-name table of `_analyze_package_json`. -/
def jsFrameworkMapping : List (String × String) :=
  [("react", "React"), ("@types/react", "React"), ("react-dom", "React"),
   ("react-scripts", "React"), ("next", "Next.js"), ("nuxt", "Nuxt.js"),
   ("vue", "Vue.js"), ("@vue/cli", "Vue.js"), ("@angular/core", "Angular"),
   ("svelte", "Svelte"), ("express", "Express.js"), ("koa", "Koa"),
   ("fastify", "Fastify"), ("@nestjs/core", "NestJS"),
   ("typescript", "TypeScript"), ("webpack", "Webpack"), ("vite", "Vite"),
   ("jest", "Jest"), ("mocha", "Mocha"), ("cypress", "Cypress")]

/-- Model of `_analyze_package_json`: `none` (unreadable or malformed JSON)
yields the empty set; otherwise frameworks whose dependency key occurs among
the merged `dependencies` and `devDependencies` keys. -/
def analyzePackageJson (j : Option PkgJson) : List String :=
  match j with
  | none => []
  | some d =>
    let deps := d.dependencies ++ d.devDependencies
    jsFrameworkMapping.foldl
      (fun acc m => if deps.contains m.1 then addFw acc m.2 else acc) []

/-- Keyword table of `_analyze_requirements_txt`. -/
def pythonFwMapping : List (String × String) :=
  [("django", "Django"), ("flask", "Flask"), ("fastapi", "FastAPI"),
   ("tornado", "Tornado"), ("sanic", "Sanic"), ("starlette", "Starlette"),
   ("aiohttp", "aiohttp"), ("streamlit", "Streamlit"), ("pandas", "Pandas"),
   ("numpy", "NumPy"), ("tensorflow", "TensorFlow"), ("pytorch", "PyTorch"),
   ("torch", "PyTorch"), ("pytest", "pytest"), ("unittest", "unittest")]

/-- Model of `_analyze_requirements_txt` on the optional raw text. -/
def analyzeRequirementsTxt (t : Option String) : List String :=
  match t with
  | none => []
  | some txt =>
    (splitLinesL txt.data).foldl
      (fun acc l =>
        let line := pyLowerL (pyStripL l)
        if !line.isEmpty && line.headD ' ' != '#' then
          let pkg := pyStripL (line.takeWhile
            (fun c => !(c = '>' || c = '<' || c = '=' || c = '!')))
          pythonFwMapping.foldl
            (fun a m => if isInfixB m.1.data pkg then addFw a m.2 else a) acc
        else acc)
      []

/-- Keyword table of `_analyze_pyproject_toml`. -/
def pyprojectFwMapping : List (String × String) :=
  [("django", "Django"), ("flask", "Flask"), ("fastapi", "FastAPI"),
   ("poetry", "Poetry")]

/-- Model of `_analyze_pyproject_toml` on the optional raw text. -/
def analyzePyprojectToml (t : Option String) : List String :=
  match t with
  | none => []
  | some txt =>
    let c := pyLowerL txt.data
    pyprojectFwMapping.foldl
      (fun a m => if isInfixB m.1.data c then addFw a m.2 else a) []

/-- Artifact-id keyword table of `_analyze_pom_xml`. -/
def javaFwMapping : List (String × String) :=
  [("spring-boot", "Spring Boot"), ("spring-core", "Spring Framework"),
   ("spring-web", "Spring Web"), ("hibernate", "Hibernate"),
   ("junit", "JUnit"), ("mockito", "Mockito")]

/-- Dependency loop of `_analyze_pom_xml`: a dependency whose resolved
`artifactId` element is missing is skipped; one whose element has no text
raises inside the `try`, so the set accumulated so far is returned. -/
def pomLoop : List (Option (Option String)) → List String → List String
  | [], acc => acc
  | none :: rest, acc => pomLoop rest acc
  | some none :: _, acc => acc
  | some (some txt) :: rest, acc =>
    pomLoop rest
      (javaFwMapping.foldl
        (fun a m => if isInfixB m.1.data (pyLowerL txt.data) then addFw a m.2 else a)
        acc)

/-- Model of `_analyze_pom_xml`: `none` (unreadable or malformed XML) yields
the empty set; otherwise the dependency list found with the Maven namespace,
or the namespace-free one when the former is empty (`findall … or findall …`). -/
def analyzePomXml (doc : Option PomDoc) : List String :=
  match doc with
  | none => []
  | some d =>
    let deps := if d.depsNs.isEmpty then d.depsPlain else d.depsNs
    pomLoop deps []

/-- Keyword table of `_analyze_gradle`. -/
def gradleFwMapping : List (String × String) :=
  [("spring-boot", "Spring Boot"), ("spring", "Spring Framework"),
   ("hibernate", "Hibernate"), ("junit", "JUnit"), ("kotlin", "Kotlin")]

/-- Model of `_analyze_gradle` on the optional raw text. -/
def analyzeGradle (t : Option String) : List String :=
  match t with
  | none => []
  | some txt =>
    let c := pyLowerL txt.data
    gradleFwMapping.foldl
      (fun a m => if isInfixB m.1.data c then addFw a m.2 else a) []

/-- Keyword table of `_analyze_go_mod` (case-sensitive matching). -/
def goFwMapping : List (String × String) :=
  [("gin-gonic/gin", "Gin"), ("gorilla/mux", "Gorilla Mux"),
   ("labstack/echo", "Echo"), ("fiber", "Fiber"),
   ("gorm.io/gorm", "GORM"), ("go-chi/chi", "Chi")]

/-- Model of `_analyze_go_mod` on the optional raw text. -/
def analyzeGoMod (t : Option String) : List String :=
  match t with
  | none => []
  | some txt =>
    goFwMapping.foldl
      (fun a m => if isInfixB m.1.data txt.data then addFw a m.2 else a) []

/-- Model of `_analyze_by_file_structure`. -/
def analyzeByFileStructure (files : List FileRecord) : List String :=
  let paths := (files.filter (fun r => r.ftype == "file")).map (·.path)
  let a1 := if paths.any (fun p => containsSub ".jsx" p || containsSub ".tsx" p)
    then ["React"] else []
  let a2 := if paths.any (fun p => containsSub ".vue" p)
    then addFw a1 "Vue.js" else a1
  if paths.any (fun p => containsSub "manage.py" p || containsSub "settings.py" p)
    then addFw a2 "Django" else a2

/-- Find a manifest by name and run its framework analyzer under the guards
of `_detect_frameworks` (`if path and project_dir:`), else the empty set. -/
def manifestFw (files : List FileRecord) (pd : Option String) (nm : String)
    (an : FileRecord → List String) : List String :=
  match findFileRec files nm with
  | some r => if truthyO r.fullPath && truthyO pd then an r else []
  | none => []

/-- Model of `_detect_frameworks`. -/
def detectFrameworks (files : List FileRecord) (pd : Option String)
    (primary : String) : List String :=
  let fw : List String :=
    if primary = "JavaScript" || primary = "TypeScript" then
      (manifestFw files pd "package.json" (fun r => analyzePackageJson r.jsonDoc)).foldl addFw []
    else if primary = "Python" then
      let a := (manifestFw files pd "requirements.txt" (fun r => analyzeRequirementsTxt r.text)).foldl addFw []
      (manifestFw files pd "pyproject.toml" (fun r => analyzePyprojectToml r.text)).foldl addFw a
    else if primary = "Java" || primary = "Kotlin" then
      let a := (manifestFw files pd "pom.xml" (fun r => analyzePomXml r.pomDoc)).foldl addFw []
      (manifestFw files pd "build.gradle" (fun r => analyzeGradle r.text)).foldl addFw a
    else if primary = "Go" then
      (manifestFw files pd "go.mod" (fun r => analyzeGoMod r.text)).foldl addFw []
    else []
  sortedSet ((analyzeByFileStructure files).foldl addFw fw)

/-! Build tools, tests, container descriptor. -/

/-- Marker-filename to build-tool table of `_detect_build_tools`. -/
def buildToolMapping : List (String × String) :=
  [("package.json", "npm"), ("yarn.lock", "yarn"), ("pnpm-lock.yaml", "pnpm"),
   ("requirements.txt", "pip"), ("pyproject.toml", "poetry"),
   ("Pipfile", "pipenv"), ("pom.xml", "maven"), ("build.gradle", "gradle"),
   ("build.gradle.kts", "gradle"), ("Cargo.toml", "cargo"), ("go.mod", "go"),
   ("Makefile", "make"), ("webpack.config.js", "webpack"),
   ("vite.config.js", "vite"), ("vite.config.ts", "vite")]

/-- Model of `_detect_build_tools`. -/
def detectBuildTools (files : List FileRecord) : List String :=
  sortedSet (files.foldl
    (fun acc r =>
      if r.ftype == "file" then
        match buildToolMapping.lookup r.name with
        | some tool => addFw acc tool
        | none => acc
      else acc)
    [])

/-- Model of `_detect_package_managers` (identical to the build tools). -/
def detectPackageManagers (buildTools : List String) : List String := buildTools

/-- Lowercased (pattern-prefix, pattern-suffix) pairs compiling the eleven
test-name regexes of `_check_tests`; `re.match(p, name, IGNORECASE)` for each
pattern `^P.*S$` holds iff the lowercased name is `P ++ mid ++ S` (or with a
single trailing newline, which `$` also accepts) with no newline in `mid`. -/
def patternPairs : List (String × String) :=
  [("test", ".py"), ("", "_test.py"), ("", ".test.js"), ("", ".spec.js"),
   ("", ".test.ts"), ("", ".spec.ts"), ("", "test.java"), ("", "_test.go"),
   ("test_", ".py"), ("", ".test.jsx"), ("", ".spec.tsx")]

/-- No newline occurs in the list. -/
def noNL (l : List Char) : Bool := !(l.contains '\n')

/-- Suffix-and-middle check used by `matchPSb`. -/
def check1 (sfx core : List Char) : Bool :=
  sfx.isSuffixOf core && noNL (core.take (core.length - sfx.length))

/-- Executable matcher for the anchored regex `^P.*S$` (with `$` also
matching before a single trailing newline). -/
def matchPSb (pre sfx n : List Char) : Bool :=
  pre.isPrefixOf n &&
    (check1 sfx (n.drop pre.length) || check1 (sfx ++ ['\n']) (n.drop pre.length))

/-- Filename signal of `_check_tests`. -/
def testPatternsMatch (name : String) : Bool :=
  patternPairs.any (fun p => matchPSb p.1.data p.2.data (pyLowerL name.data))

/-- Conventional test directory names of `_check_tests`. -/
def testDirectories : List String := ["test", "tests", "__tests__", "spec", "specs"]

/-- Directory signal of `_check_tests`:
`f'/{d}/' in path or path.startswith(f'/{d}')`. -/
def dirSignal (path : String) : Bool :=
  testDirectories.any (fun d =>
    containsSub ("/" ++ d ++ "/") path || ("/" ++ d).data.isPrefixOf path.data)

/-- Model of `_check_tests`. -/
def checkTests (files : List FileRecord) : Bool :=
  files.any (fun r => testPatternsMatch r.name || dirSignal r.path)

/-- Container descriptor filenames of `_check_dockerfile`. -/
def dockerfileNames : List String :=
  ["Dockerfile", "dockerfile", "Dockerfile.prod", "Dockerfile.dev"]

/-- Model of `_check_dockerfile`. -/
def checkDockerfile (files : List FileRecord) : Bool :=
  files.any (fun r => r.ftype == "file" && dockerfileNames.contains r.name)

/-- Model of `detect_tech_stack`. -/
def detectTechStack (files : List FileRecord) (pd : Option String) : TechStack :=
  let stats := countLinesByLanguage files pd
  let primary := detectPrimaryLanguage stats
  let bt := detectBuildTools files
  { primaryLanguage := primary
    languageStats := stats
    versionInfo := detectVersions files pd primary
    frameworks := detectFrameworks files pd primary
    buildTools := bt
    packageManagers := detectPackageManagers bt
    hasTests := checkTests files
    hasDockerfile := checkDockerfile files }

/-! Stack Profile Builder: confidence (`repository_analyzer._calculate_confidence`). -/

/-- Known manifest filenames consulted by `_calculate_confidence`. -/
def configFiles : List String :=
  ["package.json", "requirements.txt", "pom.xml", "build.gradle",
   "Cargo.toml", "go.mod", "pyproject.toml"]

/-- Model of `_calculate_confidence`. -/
def calculateConfidence (ts : TechStack) (files : List FileRecord) : ℚ :=
  let c0 : ℚ := 0.4
  let c1 := if configFiles.any (fun cf => files.any (fun f => f.name == cf))
    then c0 + 0.15 else c0
  let c2 := if !ts.buildTools.isEmpty then c1 + 0.1 else c1
  let c3 := if ts.hasTests then c2 + 0.1 else c2
  let c4 := if !ts.frameworks.isEmpty then c3 + 0.1 else c3
  let c5 := if truthyS ts.primaryLanguage && ts.primaryLanguage ≠ "Unknown"
    then c4 + 0.15 else c4
  min c5 1

/-! Pipeline Synthesizer (`pipeline_generator.PipelineGenerator`).  The
generator builds one YAML string; the base configuration dictionary is
serialized by `yaml.dump(…, default_flow_style=False, allow_unicode=True,
sort_keys=False)`, reproduced here for the exact dictionary shapes the
generator passes (block style, two-space nesting, sequences at parent
indent, empty collections in flow style, bool/int-like string scalars
single-quoted). -/

/-- Scalar rendering of the variable values the generator emits: PyYAML
quotes the strings that would otherwise read as booleans or integers
(`true`, `false`, `1`, `0` are the ones occurring here). -/
def yamlScalar (s : String) : String :=
  if s = "true" || s = "false" || s = "1" || s = "0"
  then "\x27" ++ s ++ "\x27" else s

/-- Block rendering of the `stages` sequence. -/
def yamlStages (stages : List String) : String :=
  "stages:\n" ++ String.join (stages.map (fun s => "- " ++ s ++ "\n"))

/-- Block rendering of the `variables` mapping. -/
def yamlVariables (vars : List (String × String)) : String :=
  if vars.isEmpty then "variables: \x7b\x7d\n"
  else "variables:\n" ++
    String.join (vars.map (fun p => "  " ++ p.1 ++ ": " ++ yamlScalar p.2 ++ "\n"))

/-- Block rendering of the `cache` mapping produced by
`_generate_cache_config` (key and policy are constants in the source). -/
def yamlCache (paths : List String) : String :=
  "cache:\n  key: $CI_COMMIT_REF_SLUG\n" ++
    (if paths.isEmpty then "  paths: []\n"
     else "  paths:\n" ++ String.join (paths.map (fun p => "  - " ++ p ++ "\n"))) ++
  "  policy: pull-push\n"

/-- Block rendering of the `before_script` sequence. -/
def yamlBeforeScript (cmds : List String) : String :=
  if cmds.isEmpty then "before_script: []\n"
  else "before_script:\n" ++ String.join (cmds.map (fun c => "- " ++ c ++ "\n"))

/-- Model of `_get_docker_image_and_variables`. -/
def getDockerImageAndVariables (lang : String) (fw : List String)
    (vi : VersionInfo) : String × List (String × String) :=
  let v := vi.languageVersion
  if lang = "JavaScript" || lang = "TypeScript" then
    ("node:" ++ (if truthyS v then v else "18") ++ "-alpine",
     [("NPM_CONFIG_CACHE", "$CI_PROJECT_DIR/.npm"),
      ("NODE_OPTIONS", "--max-old-space-size=4096"),
      ("CI", "true")])
  else if lang = "Python" then
    ("python:" ++ (if truthyS v then v else "3.9") ++ "-slim",
     [("PIP_CACHE_DIR", "$CI_PROJECT_DIR/.cache/pip"),
      ("PYTHONPATH", "$CI_PROJECT_DIR"),
      ("PYTHONUNBUFFERED", "1")])
  else if lang = "Java" || lang = "Kotlin" then
    ("maven:3.8-openjdk-" ++ (if truthyS v then v else "11"),
     [("MAVEN_OPTS", "-Dmaven.repo.local=$CI_PROJECT_DIR/.m2/repository -Xmx1024m"),
      ("MAVEN_CLI_OPTS", "--batch-mode --errors --fail-at-end --show-version")])
  else if lang = "Go" then
    ("golang:" ++ (if truthyS v then v else "1.19") ++ "-alpine",
     [("GOCACHE", "$CI_PROJECT_DIR/.cache/go-build"),
      ("GOPATH", "$CI_PROJECT_DIR/.go"),
      ("CGO_ENABLED", "0")])
  else ("alpine:latest", [])

/-- Cache paths of `_generate_cache_config`. -/
def cachePaths (lang : String) : List String :=
  if lang = "JavaScript" || lang = "TypeScript" then [".npm/", "node_modules/"]
  else if lang = "Python" then [".cache/pip/", "__pycache__/", ".pytest_cache/"]
  else if lang = "Java" || lang = "Kotlin" then [".m2/repository/", ".gradle/"]
  else if lang = "Go" then [".cache/go-build/", ".go/"]
  else []

/-- Model of `_generate_before_script`. -/
def beforeScript (lang : String) (tools fw : List String) : List String :=
  if lang = "JavaScript" || lang = "TypeScript" then
    if tools.contains "npm" then ["npm ci --cache .npm --prefer-offline"]
    else if tools.contains "yarn" then
      ["yarn install --frozen-lockfile --cache-folder .yarn"]
    else if tools.contains "pnpm" then ["pnpm install --frozen-lockfile"]
    else []
  else if lang = "Python" then
    ["python -m pip install --upgrade pip",
     "pip install -r requirements.txt --cache-dir .cache/pip"]
  else if (lang = "Java" || lang = "Kotlin") && tools.contains "maven" then
    ["mvn dependency:go-offline $MAVEN_CLI_OPTS"]
  else []

/-- Rendering of `chr(10).join(f'    - {cmd}' for cmd in cmds)`. -/
def scriptJoin (cmds : List String) : String :=
  String.intercalate "\n" (cmds.map (fun c => "    - " ++ c))

/-- Model of `_generate_build_job`. -/
def buildJob (lang : String) (tools fw : List String) : String :=
  if lang = "JavaScript" || lang = "TypeScript" then
    let cmds := if fw.contains "React" || fw.contains "Vue.js" ||
        fw.contains "Angular" || fw.contains "Next.js"
      then ["npm run build"]
      else ["npm run build || echo \"No build script found\""]
    "\nbuild:\n  stage: build\n  script:\n    - " ++ scriptJoin cmds ++
    "\n  artifacts:\n    paths:\n      - dist/\n      - build/\n      - .next/\n      - out/\n    expire_in: 1 hour\n  only:\n    - branches\n"
  else if lang = "Python" then
    let cmds := ["python -m compileall ."] ++
      (if fw.contains "Django" then
        ["python manage.py collectstatic --noinput",
         "python manage.py check --deploy"]
       else [])
    "\nbuild:\n  stage: build\n  script:\n    - " ++ scriptJoin cmds ++
    "\n  artifacts:\n    paths:\n      - staticfiles/\n      - \"*.pyc\"\n    expire_in: 1 hour\n"
  else if (lang = "Java" || lang = "Kotlin") && tools.contains "maven" then
    "\nbuild:\n  stage: build\n  script:\n    - mvn clean compile $MAVEN_CLI_OPTS\n    - mvn package -DskipTests $MAVEN_CLI_OPTS\n  artifacts:\n    paths:\n      - target/*.jar\n      - target/*.war\n    expire_in: 1 hour\n"
  else if (lang = "Java" || lang = "Kotlin") && tools.contains "gradle" then
    "\nbuild:\n  stage: build\n  script:\n    - ./gradlew clean build -x test --no-daemon\n  artifacts:\n    paths:\n      - build/libs/*.jar\n    expire_in: 1 hour\n"
  else if lang = "Go" then
    "\nbuild:\n  stage: build\n  script:\n    - go mod download\n    - go build -v -o app ./...\n  artifacts:\n    paths:\n      - app\n    expire_in: 1 hour\n"
  else
    "\nbuild:\n  stage: build\n  script:\n    - echo \"Настройте команды сборки для вашего проекта\"\n  artifacts:\n    paths:\n      - \"build/\"\n    expire_in: 1 hour\n"

/-- Model of `_generate_test_job`. -/
def testJob (lang : String) (tools fw : List String) : String :=
  if lang = "JavaScript" || lang = "TypeScript" then
    let cmds := if fw.contains "React" then
        ["npm test -- --coverage --watchAll=false --ci"]
      else if fw.contains "Vue.js" then ["npm run test:unit"]
      else if fw.contains "Angular" then
        ["npm run test -- --watch=false --browsers=ChromeHeadless --code-coverage"]
      else ["npm test"]
    "\ntest:\n  stage: test\n  script:\n    - " ++ scriptJoin cmds ++
    "\n  artifacts:\n    reports:\n      junit: junit.xml\n      coverage_report:\n        coverage_format: cobertura\n        path: coverage/cobertura-coverage.xml\n    paths:\n      - coverage/\n    when: always\n  coverage: \x27/Lines\\s*:\\s*(\\d+\\.?\\d*)%/\x27\n"
  else if lang = "Python" then
    if fw.contains "Django" then
      "\ntest:\n  stage: test\n  script:\n    - coverage run --source=\x27.\x27 manage.py test --keepdb\n    - coverage xml\n    - coverage report\n  artifacts:\n    reports:\n      junit: test-results.xml\n      coverage_report:\n        coverage_format: cobertura\n        path: coverage.xml\n    when: always\n  coverage: \x27/TOTAL.+ ([0-9]\x7b1,3\x7d%)/\x27\n"
    else
      "\ntest:\n  stage: test\n  script:\n    - pytest --junitxml=test-results.xml --cov=. --cov-report=xml --cov-report=term\n  artifacts:\n    reports:\n      junit: test-results.xml\n      coverage_report:\n        coverage_format: cobertura\n        path: coverage.xml\n    when: always\n  coverage: \x27/TOTAL.+ ([0-9]\x7b1,3\x7d%)/\x27\n"
  else if (lang = "Java" || lang = "Kotlin") && tools.contains "maven" then
    "\ntest:\n  stage: test\n  script:\n    - mvn test $MAVEN_CLI_OPTS\n    - mvn jacoco:report $MAVEN_CLI_OPTS\n  artifacts:\n    reports:\n      junit: target/surefire-reports/*.xml\n    paths:\n      - target/site/jacoco/\n    when: always\n"
  else if (lang = "Java" || lang = "Kotlin") && tools.contains "gradle" then
    "\ntest:\n  stage: test\n  script:\n    - ./gradlew test jacocoTestReport --no-daemon\n  artifacts:\n    reports:\n      junit: build/test-results/test/*.xml\n    paths:\n      - build/reports/jacoco/test/html/\n    when: always\n"
  else if lang = "Go" then
    "\ntest:\n  stage: test\n  script:\n    - go test -v ./... -coverprofile=coverage.out\n    - go tool cover -func=coverage.out\n  artifacts:\n    paths:\n      - coverage.out\n    when: always\n  coverage: \x27/total:.*?([0-9.]+)%/\x27\n"
  else
    "\ntest:\n  stage: test\n  script:\n    - echo \"Настройте команды тестирования\"\n"

/-- Model of `_generate_quality_job`. -/
def qualityJob (lang : String) (fw : List String) : String :=
  if lang = "JavaScript" || lang = "TypeScript" then
    "\ncode-quality:\n  stage: quality\n  script:\n    - npm run lint || npx eslint . --ext .js,.jsx,.ts,.tsx --format gitlab --output-file eslint-report.json || true\n    - npx prettier --check . || true\n  artifacts:\n    reports:\n      codequality: eslint-report.json\n    when: always\n  allow_failure: true\n"
  else if lang = "Python" then
    "\ncode-quality:\n  stage: quality\n  script:\n    - pip install flake8 black mypy\n    - flake8 . --format=json --output-file=flake8-report.json || true\n    - black --check . || true\n    - mypy . --ignore-missing-imports || true\n  artifacts:\n    reports:\n      codequality: flake8-report.json\n    when: always\n  allow_failure: true\n"
  else if lang = "Java" || lang = "Kotlin" then
    "\ncode-quality:\n  stage: quality\n  script:\n    - mvn checkstyle:check $MAVEN_CLI_OPTS || true\n    - mvn pmd:check $MAVEN_CLI_OPTS || true\n  allow_failure: true\n"
  else if lang = "Go" then
    "\ncode-quality:\n  stage: quality\n  script:\n    - go fmt ./...\n    - go vet ./...\n    - go install golang.org/x/lint/golint@latest\n    - golint ./... || true\n  allow_failure: true\n"
  else
    "\ncode-quality:\n  stage: quality\n  script:\n    - echo \"Настройте проверку качества кода\"\n  allow_failure: true\n"

/-- Model of `_generate_sonarqube_job` (the argument is unused, as in the
source). -/
def sonarqubeJob (lang : String) : String :=
  "\nsonarqube-check:\n  stage: quality\n  image: sonarsource/sonar-scanner-cli:latest\n  variables:\n    SONAR_HOST_URL: \"$\x7bSONAR_HOST_URL\x7d\"\n    SONAR_TOKEN: \"$\x7bSONAR_TOKEN\x7d\"\n  script:\n    - sonar-scanner\n      -Dsonar.projectKey=$CI_PROJECT_NAME\n      -Dsonar.sources=.\n      -Dsonar.host.url=$SONAR_HOST_URL\n      -Dsonar.login=$SONAR_TOKEN\n  allow_failure: true\n  only:\n    - main\n    - develop\n"

/-- Model of `_generate_package_job`. -/
def packageJob (lang : String) (fw : List String) : String :=
  "\npackage:\n  stage: package\n  script:\n    - echo \"Упаковка артефактов для развертывания\"\n    - tar -czf application.tar.gz dist/ build/ staticfiles/ target/ app || true\n  artifacts:\n    paths:\n      - application.tar.gz\n    expire_in: 1 week\n  only:\n    - main\n    - develop\n"

/-- Model of `_generate_nexus_upload_job`. -/
def nexusUploadJob (lang : String) : String :=
  "\nnexus-upload:\n  stage: package\n  script:\n    - echo \"Загрузка артефактов в Nexus Repository\"\n    - |\n      curl -v -u $NEXUS_USER:$NEXUS_PASSWORD \\\n        --upload-file application.tar.gz \\\n        $NEXUS_URL/repository/releases/$CI_PROJECT_NAME/$CI_COMMIT_TAG/application.tar.gz\n  only:\n    - tags\n  when: manual\n"

/-- Model of `_generate_docker_build_job` (the f-string is written here as a
concatenation split at the lines interpolating `repo_name.lower()`). -/
def dockerBuildJob (repoName : String) : String :=
  let r := pyLower repoName
  "\ndocker-build:\n  stage: docker-build\n  image: docker:24-cli\n  services:\n    - docker:24-dind\n  variables:\n    DOCKER_TLS_CERTDIR: \"/certs\"\n    DOCKER_DRIVER: overlay2\n  before_script:\n    - docker login -u $CI_REGISTRY_USER -p $CI_REGISTRY_PASSWORD $CI_REGISTRY\n  script:\n    - echo \"Building Docker image with multi-stage build...\"\n    - docker build\n      --build-arg CI_COMMIT_SHA=$CI_COMMIT_SHA\n      --build-arg CI_COMMIT_REF_NAME=$CI_COMMIT_REF_NAME\n      --cache-from $CI_REGISTRY_IMAGE:latest\n" ++
  ("      -t $CI_REGISTRY_IMAGE:" ++ r ++ "-$CI_COMMIT_SHA") ++ "\n" ++
  "      -t $CI_REGISTRY_IMAGE:latest\n      .\n" ++
  ("    - docker push $CI_REGISTRY_IMAGE:" ++ r ++ "-$CI_COMMIT_SHA") ++ "\n" ++
  "    - docker push $CI_REGISTRY_IMAGE:latest\n    - |\n      if [ \"$CI_COMMIT_BRANCH\" == \"main\" ]; then\n" ++
  ("        docker tag $CI_REGISTRY_IMAGE:" ++ r ++ "-$CI_COMMIT_SHA $CI_REGISTRY_IMAGE:stable") ++ "\n" ++
  "        docker push $CI_REGISTRY_IMAGE:stable\n      fi\n  after_script:\n    - docker system prune -f\n  only:\n    - main\n    - develop\n"

/-- Model of `_generate_docker_security_scan_job`. -/
def dockerSecurityScanJob (repoName : String) : String :=
  let r := pyLower repoName
  "\ndocker-security-scan:\n  stage: docker-build\n  image:\n    name: aquasec/trivy:latest\n    entrypoint: [\"\"]\n  script:\n    - trivy image\n      --format template\n      --template \"@contrib/gitlab.tpl\"\n      --output gl-container-scanning-report.json\n" ++
  ("      $CI_REGISTRY_IMAGE:" ++ r ++ "-$CI_COMMIT_SHA") ++ "\n" ++
  "  artifacts:\n    reports:\n      container_scanning: gl-container-scanning-report.json\n  dependencies:\n    - docker-build\n  allow_failure: true\n  only:\n    - main\n    - develop\n"

/-- Model of `_generate_deployment_jobs`. -/
def deploymentJobs (repoName : String) (hasDockerfile : Bool) : String :=
  let r := pyLower repoName
  let imageRef := if hasDockerfile
    then "$CI_REGISTRY_IMAGE:" ++ r ++ "-$CI_COMMIT_SHA"
    else "application.tar.gz"
  let d := if hasDockerfile then "True" else "False"
  "\ndeploy-staging:\n  stage: deploy-staging\n  image: bitnami/kubectl:latest\n  script:\n    - echo \"Развертывание в staging окружение\"\n    - kubectl config use-context staging\n    - |\n" ++
  ("      if [ \"" ++ d ++ "\" == \"True\" ]; then") ++ "\n" ++
  ("        kubectl set image deployment/" ++ r ++ " " ++ r ++ "=" ++ imageRef) ++ "\n" ++
  ("        kubectl rollout status deployment/" ++ r) ++ "\n" ++
  "      else\n        echo \"Развертывание без Docker (например, на VM)\"\n        # Добавьте команды для развертывания без контейнеров\n      fi\n  environment:\n    name: staging\n" ++
  ("    url: https://staging." ++ r ++ ".com") ++ "\n" ++
  "  only:\n    - develop\n  when: manual\n\ndeploy-production:\n  stage: deploy-production\n  image: bitnami/kubectl:latest\n  script:\n    - echo \"Развертывание в production окружение\"\n    - kubectl config use-context production\n    - |\n" ++
  ("      if [ \"" ++ d ++ "\" == \"True\" ]; then") ++ "\n" ++
  ("        kubectl set image deployment/" ++ r ++ " " ++ r ++ "=" ++ imageRef) ++ "\n" ++
  ("        kubectl rollout status deployment/" ++ r) ++ "\n" ++
  "      else\n        echo \"Развертывание без Docker (например, на VM)\"\n        # Добавьте команды для развертывания без контейнеров\n      fi\n  environment:\n    name: production\n" ++
  ("    url: https://" ++ r ++ ".com") ++ "\n" ++
  "  only:\n    - main\n  when: manual\n"

/-- Stage list of `generate_gitlab_pipeline` (lines 50–54 of the source). -/
def stagesList (hasDockerfile : Bool) : List String :=
  ["build", "test", "quality", "package"] ++
    (if hasDockerfile
     then ["docker-build", "deploy-staging", "deploy-production"]
     else ["deploy-staging", "deploy-production"])

/-- Model of `generate_gitlab_pipeline`.  The two feature flags are the
`sonarqube_enabled` / `nexus_enabled` attributes (both `True` by default);
`repoName` is `analysis_result['repository']['name']`.  The `print` call has
no effect on the returned string and is not modelled. -/
def generateGitlabPipeline (sonarqubeEnabled nexusEnabled : Bool)
    (ts : TechStack) (repoName : String) : String :=
  let iv := getDockerImageAndVariables ts.primaryLanguage ts.frameworks ts.versionInfo
  yamlStages (stagesList ts.hasDockerfile) ++
  yamlVariables iv.2 ++
  ("image: " ++ iv.1 ++ "\n") ++
  yamlCache (cachePaths ts.primaryLanguage) ++
  yamlBeforeScript (beforeScript ts.primaryLanguage ts.buildTools ts.frameworks) ++
  "\n# ==================== BUILD STAGE ====================\n" ++
  buildJob ts.primaryLanguage ts.buildTools ts.frameworks ++
  (if ts.hasTests then
    "\n# ==================== TEST STAGE ====================\n" ++
    testJob ts.primaryLanguage ts.buildTools ts.frameworks
   else "") ++
  "\n# ==================== CODE QUALITY STAGE ====================\n" ++
  qualityJob ts.primaryLanguage ts.frameworks ++
  (if sonarqubeEnabled then "\n# SonarQube анализ\n" ++ sonarqubeJob ts.primaryLanguage else "") ++
  "\n# ==================== PACKAGE STAGE ====================\n" ++
  packageJob ts.primaryLanguage ts.frameworks ++
  (if nexusEnabled then "\n# Загрузка артефактов в Nexus\n" ++ nexusUploadJob ts.primaryLanguage else "") ++
  (if ts.hasDockerfile then
    "\n# ==================== DOCKER BUILD STAGE ====================\n" ++
    dockerBuildJob repoName ++
    "\n# Docker Security Scan\n" ++
    dockerSecurityScanJob repoName
   else "") ++
  "\n# ==================== DEPLOYMENT STAGES ====================\n" ++
  deploymentJobs repoName ts.hasDockerfile

/-! Derived notions used by the claims. -/

/-- Sum of the `percentage` fields of a statistics map. -/
def sumPercentages (stats : List (String × LangStat)) : ℚ :=
  (stats.map (fun p => p.2.percentage)).sum

/-- Declarative semantics of the anchored regex `^P.*S$` under `re.match`
(`$` also matches before one trailing newline, `.` does not match a
newline): the input decomposes as `P ++ mid ++ S` (plus at most one final
newline) with no newline in `mid`. -/
def matchPS (pre sfx n : List Char) : Prop :=
  ∃ mid t, n = pre ++ mid ++ sfx ++ t ∧ '\n' ∉ mid ∧ (t = [] ∨ t = ['\n'])

/-- Declarative form of the filename signal: some test-name regex matches
the (lowercased) name. -/
def nameMatchesRegex (name : String) : Prop :=
  ∃ p ∈ patternPairs, matchPS p.1.data p.2.data (pyLowerL name.data)

/-- Split a character list at a separator (semantics of Python
`str.split(sep)` for a one-character separator). -/
def splitCharsOn (sep : Char) : List Char → List (List Char)
  | [] => [[]]
  | c :: cs =>
    if c = sep then [] :: splitCharsOn sep cs
    else (c :: (splitCharsOn sep cs).headD []) :: (splitCharsOn sep cs).tail

/-- Path components, splitting at `/`. -/
def pathComponents (p : String) : List String :=
  (splitCharsOn '/' p.data).map (fun l => (⟨l⟩ : String))

/-- Predicate following the claim's words for C9: a filename matches one of
the test-naming regexes, or the path contains a conventional test-directory
name as a path component. -/
def claimTestSignal (files : List FileRecord) : Prop :=
  ∃ r ∈ files, nameMatchesRegex r.name ∨
    ∃ d ∈ testDirectories, d ∈ pathComponents r.path

/-- Declarative form of the directory signal the code actually implements:
`'/{d}/'` occurs in the path, or the path merely starts with `'/{d}'`
(which also fires on names that only begin with `d`). -/
def dirSignalProp (path : String) : Prop :=
  ∃ d ∈ testDirectories,
    ("/" ++ d ++ "/").data <:+: path.data ∨ ("/" ++ d).data <+: path.data

/-- Membership of a full line in a string (the YAML job named `n` exists in
a pipeline text iff the text has a line `n ++ ":"`). -/
abbrev hasLine (s : String) (l : String) : Prop := l.data ∈ splitLinesL s.data

/-- No line of `s` is exactly `test:`. -/
abbrev noTestLine (s : String) : Prop := "test:".data ∉ splitLinesL s.data

/-- The last line of `s` is empty: `s` is the empty string or ends with a
newline character. -/
abbrev CleanEnd (s : String) : Prop := (splitLinesL s.data).getLastD [] = []

/-- Segment invariant for the pipeline assembly: no `test:` line, and the
segment is empty or newline-terminated. -/
abbrev SegOk (s : String) : Prop := noTestLine s ∧ CleanEnd s

/-- Sixteen one-line source files, one per recognised language: a concrete
repository on which every language earns percentage `round(6.25, 1) = 6.2`. -/
def sixteenLangFiles : List FileRecord :=
  [{ name := "a.js", ftype := "file", extension := ".js", path := "/a.js",
     fullPath := some "/p/a.js", size := 1, text := some "x" },
   { name := "a.ts", ftype := "file", extension := ".ts", path := "/a.ts",
     fullPath := some "/p/a.ts", size := 1, text := some "x" },
   { name := "a.py", ftype := "file", extension := ".py", path := "/a.py",
     fullPath := some "/p/a.py", size := 1, text := some "x" },
   { name := "a.java", ftype := "file", extension := ".java", path := "/a.java",
     fullPath := some "/p/a.java", size := 1, text := some "x" },
   { name := "a.kt", ftype := "file", extension := ".kt", path := "/a.kt",
     fullPath := some "/p/a.kt", size := 1, text := some "x" },
   { name := "a.go", ftype := "file", extension := ".go", path := "/a.go",
     fullPath := some "/p/a.go", size := 1, text := some "x" },
   { name := "a.rs", ftype := "file", extension := ".rs", path := "/a.rs",
     fullPath := some "/p/a.rs", size := 1, text := some "x" },
   { name := "a.cpp", ftype := "file", extension := ".cpp", path := "/a.cpp",
     fullPath := some "/p/a.cpp", size := 1, text := some "x" },
   { name := "a.c", ftype := "file", extension := ".c", path := "/a.c",
     fullPath := some "/p/a.c", size := 1, text := some "x" },
   { name := "a.h", ftype := "file", extension := ".h", path := "/a.h",
     fullPath := some "/p/a.h", size := 1, text := some "x" },
   { name := "a.cs", ftype := "file", extension := ".cs", path := "/a.cs",
     fullPath := some "/p/a.cs", size := 1, text := some "x" },
   { name := "a.php", ftype := "file", extension := ".php", path := "/a.php",
     fullPath := some "/p/a.php", size := 1, text := some "x" },
   { name := "a.rb", ftype := "file", extension := ".rb", path := "/a.rb",
     fullPath := some "/p/a.rb", size := 1, text := some "x" },
   { name := "a.swift", ftype := "file", extension := ".swift", path := "/a.swift",
     fullPath := some "/p/a.swift", size := 1, text := some "x" },
   { name := "a.scala", ftype := "file", extension := ".scala", path := "/a.scala",
     fullPath := some "/p/a.scala", size := 1, text := some "x" },
   { name := "a.dart", ftype := "file", extension := ".dart", path := "/a.dart",
     fullPath := some "/p/a.dart", size := 1, text := some "x" }]

end SelfDeploy

namespace SelfDeploy

/-! Helper lemmas. -/

theorem addFw_mem {a : List String} {y x : String} (h : x ∈ addFw a y) :
    x ∈ a ∨ x = y := by
  unfold addFw at h
  split at h
  · exact Or.inl h
  · rcases List.mem_append.1 h with h' | h'
    · exact Or.inl h'
    · exact Or.inr (List.mem_singleton.1 h')

theorem foldAdd_subset (P : String × String → Bool) (l : List (String × String))
    (acc0 : List String) (x : String)
    (h : x ∈ l.foldl (fun acc m => if P m then addFw acc m.2 else acc) acc0) :
    x ∈ acc0 ∨ x ∈ l.map (·.2) := by
  induction l generalizing acc0 with
  | nil => exact Or.inl h
  | cons m rest ih =>
    simp only [List.foldl_cons] at h
    rcases ih _ h with h' | h'
    · split at h'
      · rcases addFw_mem h' with h'' | h''
        · exact Or.inl h''
        · exact Or.inr (by simp [h''])
      · exact Or.inl h'
    · exact Or.inr (by simp only [List.map_cons]; exact List.mem_cons_of_mem _ h')

theorem pomLoop_subset (deps : List (Option (Option String)))
    (acc : List String) (x : String) (h : x ∈ pomLoop deps acc) :
    x ∈ acc ∨ x ∈ javaFwMapping.map (·.2) := by
  induction deps generalizing acc with
  | nil => exact Or.inl h
  | cons dep rest ih =>
    match dep with
    | none => exact ih _ h
    | some none => exact Or.inl h
    | some (some txt) =>
      rcases ih _ h with h' | h'
      · exact foldAdd_subset _ _ _ _ h'
      · exact Or.inr h'

theorem scanOpt_some {α : Type} (f : List Char → Option α) (p : α → Prop)
    (hf : ∀ s v, f s = some v → p v) :
    ∀ t v, scanOpt f t = some v → p v := by
  intro t
  induction t with
  | nil => intro v h; exact hf _ _ h
  | cons c cs ih =>
    intro v h
    unfold scanOpt at h
    cases hc : f (c :: cs) with
    | some w => rw [hc] at h; exact hf _ _ (hc.trans (congrArg some (Option.some.inj h)))
    | none => rw [hc] at h; exact ih v h

theorem verTail_ne_nil {s l : List Char} (h : verTail s = some l) : l ≠ [] := by
  unfold verTail at h
  split at h
  · cases h
  · rename_i h1
    split at h <;> try cases h
    split at h
    · cases h
    · split at h
      · split at h <;>
          · cases h
            simp [h1]
      · cases h
        simp [h1]

theorem goAt_ne_nil {s l : List Char} (h : goAt s = some l) : l ≠ [] := by
  unfold goAt at h
  cases hm : matchLit "go".data s with
  | none => rw [hm] at h; cases h
  | some s1 =>
    rw [hm] at h
    simp only [Option.bind_eq_bind, Option.some_bind] at h
    split at h
    · cases h
    · exact verTail_ne_nil h

theorem searchGoVersion_ne_empty {t : String} {v : String}
    (h : searchGoVersion t = some v) : v ≠ "" := by
  unfold searchGoVersion at h
  cases hs : scanOpt goAt t.data with
  | none => rw [hs] at h; cases h
  | some l =>
    rw [hs] at h
    have hl : l ≠ [] := scanOpt_some goAt (fun x => x ≠ []) (fun _ _ => goAt_ne_nil) _ _ hs
    have : v = ⟨l⟩ := (Option.some.inj h).symm
    rw [this]
    intro he
    apply hl
    have := congrArg String.data he
    simpa using this

end SelfDeploy

namespace SelfDeploy

/-! Claim theorems. -/

/-- Claim C1: for every technology profile, the stage list begins with the
fixed four stages `build, test, quality, package` and ends with
`deploy-staging, deploy-production`; with a container descriptor exactly one
`docker-build` stage appears, immediately before `deploy-staging`, else none
appears, and the two lists differ by exactly that one stage. -/
theorem stage_insertion :
    ∀ d : Bool,
      (stagesList d).take 4 = ["build", "test", "quality", "package"] ∧
      (stagesList d).drop ((stagesList d).length - 2) =
        ["deploy-staging", "deploy-production"] ∧
      (stagesList true).length = (stagesList false).length + 1 ∧
      (stagesList true).count "docker-build" = 1 ∧
      "docker-build" ∉ stagesList false ∧
      stagesList true =
        ["build", "test", "quality", "package", "docker-build",
         "deploy-staging", "deploy-production"] ∧
      stagesList false =
        ["build", "test", "quality", "package",
         "deploy-staging", "deploy-production"] ∧
      (stagesList true).erase "docker-build" = stagesList false := by
  decide

/-- Claim C8: the pipeline synthesizer is a pure function of the profile and
repository name — two runs on equal profiles give byte-identical text, for
any flag configuration. -/
theorem synthesizer_deterministic :
    ∀ (sonar nexus : Bool) (ts₁ ts₂ : TechStack) (repoName : String),
      ts₁ = ts₂ →
      generateGitlabPipeline sonar nexus ts₁ repoName =
        generateGitlabPipeline sonar nexus ts₂ repoName := by
  intro _ _ _ _ _ h
  rw [h]

/-- Witness for `synthesizer_deterministic` at a concrete Go profile. -/
theorem synthesizer_deterministic_witness :
    generateGitlabPipeline true true
      ⟨"Go", [], ⟨"1.19", []⟩, [], ["go"], ["go"], true, false⟩ "App" =
    generateGitlabPipeline true true
      ⟨"Go", [], ⟨"1.19", []⟩, [], ["go"], ["go"], true, false⟩ "App" :=
  synthesizer_deterministic true true _ _ "App" rfl

/-- Claim C4: the confidence score always lies in `[0, 1]` and equals the
additive formula (base 0.4, +0.15 manifest, +0.1 build tools, +0.1 tests,
+0.1 frameworks, +0.15 known primary language) clamped at 1; on the empty
file-record list the detected stack scores exactly 0.4. -/
theorem confidence_score_spec :
    ∀ (ts : TechStack) (files : List FileRecord) (pd : Option String),
      (0 ≤ calculateConfidence ts files ∧
       calculateConfidence ts files ≤ 1 ∧
       calculateConfidence ts files =
         min ((0.4 : ℚ) +
           (if configFiles.any (fun cf => files.any (fun f => f.name == cf))
            then 0.15 else 0) +
           (if !ts.buildTools.isEmpty then 0.1 else 0) +
           (if ts.hasTests then 0.1 else 0) +
           (if !ts.frameworks.isEmpty then 0.1 else 0) +
           (if truthyS ts.primaryLanguage && ts.primaryLanguage ≠ "Unknown"
            then 0.15 else 0)) 1) ∧
      calculateConfidence (detectTechStack [] pd) [] = 0.4 := by
  intro ts files pd
  constructor
  · unfold calculateConfidence
    split_ifs <;>
      refine ⟨by norm_num, by norm_num, by norm_num⟩
  · show calculateConfidence (detectTechStack [] pd) [] = 0.4
    have hts : detectTechStack [] pd =
        { primaryLanguage := "Unknown"
          languageStats := []
          versionInfo := ⟨"latest", []⟩
          frameworks := []
          buildTools := []
          packageManagers := []
          hasTests := false
          hasDockerfile := false } := rfl
    rw [hts]
    unfold calculateConfidence
    norm_num [configFiles, truthyS]

/-- Claim C7: the manifest parsers are total and best-effort — unreadable or
malformed input (the `none` cases) yields the empty framework set or an
absent version, and any parsed input yields only known framework names. -/
theorem manifest_parsers_total :
    analyzePackageJson none = [] ∧
    analyzePomXml none = [] ∧
    (∀ j, ∀ x ∈ analyzePackageJson j, x ∈ jsFrameworkMapping.map (·.2)) ∧
    (∀ d, ∀ x ∈ analyzePomXml d, x ∈ javaFwMapping.map (·.2)) ∧
    (∀ r : FileRecord, r.text = none →
      exGo r = none ∧ exGradle r = none ∧ exPyproject r = none) ∧
    extractJavaVersionFromPom none = none ∧
    extractNodeVersion none = none := by
  refine ⟨rfl, rfl, ?_, ?_, ?_, rfl, rfl⟩
  · intro j x hx
    match j with
    | none => cases hx
    | some d =>
      unfold analyzePackageJson at hx
      rcases foldAdd_subset _ _ _ _ hx with h | h
      · cases h
      · exact h
  · intro d x hx
    match d with
    | none => cases hx
    | some doc =>
      unfold analyzePomXml at hx
      rcases pomLoop_subset _ _ _ hx with h | h
      · cases h
      · exact h
  · intro r hr
    refine ⟨?_, ?_, ?_⟩ <;> simp [exGo, exGradle, exPyproject, hr]

/-- Witness for `manifest_parsers_total`: the unreadable-record conjunct at
a concrete record with no readable text. -/
theorem manifest_parsers_total_witness :
    exGo { name := "go.mod", text := none } = none ∧
    exGradle { name := "build.gradle", text := none } = none ∧
    exPyproject { name := "pyproject.toml", text := none } = none :=
  manifest_parsers_total.2.2.2.2.1 { name := "go.mod", text := none } rfl

/-- Claim C6: on a profile whose primary language is Go, a readable `go.mod`
whose content matches the `go` directive regex overrides the default version
`1.19` with the extracted version; an absent `go.mod`, an unreadable one, or
one without a matching directive leaves `1.19`. -/
theorem go_version_override (files : List FileRecord) (pd : Option String) :
    (∀ r v, findFileRec files "go.mod" = some r → truthyO r.fullPath = true →
      truthyO pd = true → exGo r = some v →
      (detectVersions files pd "Go").languageVersion = v) ∧
    (findFileRec files "go.mod" = none →
      (detectVersions files pd "Go").languageVersion = "1.19") ∧
    (∀ r, findFileRec files "go.mod" = some r → r.text = none →
      (detectVersions files pd "Go").languageVersion = "1.19") ∧
    (∀ r t, findFileRec files "go.mod" = some r → r.text = some t →
      searchGoVersion t = none →
      (detectVersions files pd "Go").languageVersion = "1.19") := by
  have hd : detectVersions files pd "Go" =
      { languageVersion := overrideIf "1.19" (tryManifest files pd "go.mod" exGo)
        frameworkVersions := [] } := rfl
  refine ⟨?_, ?_, ?_, ?_⟩
  · intro r v hf hfp hpd he
    have hv : v ≠ "" := by
      cases ht : r.text with
      | none => simp [exGo, ht] at he
      | some t =>
        simp only [exGo, ht] at he
        exact searchGoVersion_ne_empty he
    rw [hd]
    show overrideIf "1.19" (tryManifest files pd "go.mod" exGo) = v
    simp [tryManifest, hf, hfp, hpd, he, overrideIf, truthyS, hv]
  · intro hf
    rw [hd]
    show overrideIf "1.19" (tryManifest files pd "go.mod" exGo) = "1.19"
    simp [tryManifest, hf, overrideIf]
  · intro r hf ht
    have he : exGo r = none := by simp [exGo, ht]
    rw [hd]
    show overrideIf "1.19" (tryManifest files pd "go.mod" exGo) = "1.19"
    simp [tryManifest, hf, he, overrideIf]
  · intro r t hf ht hs
    have he : exGo r = none := by simp [exGo, ht, hs]
    rw [hd]
    show overrideIf "1.19" (tryManifest files pd "go.mod" exGo) = "1.19"
    simp [tryManifest, hf, he, overrideIf]

/-- Witness for `go_version_override`: a `go.mod` with `go 1.21.3` yields
`1.21.3`; no `go.mod`, or one without a directive, yields `1.19`. -/
theorem go_version_override_witness :
    (detectVersions
      [{ name := "go.mod", ftype := "file", fullPath := some "/p/go.mod",
         text := some "module m\n\ngo 1.21.3\n" }]
      (some "/p") "Go").languageVersion = "1.21.3" ∧
    (detectVersions [] (some "/p") "Go").languageVersion = "1.19" ∧
    (detectVersions
      [{ name := "go.mod", ftype := "file", fullPath := some "/p/go.mod",
         text := some "module m\n" }]
      (some "/p") "Go").languageVersion = "1.19" := by
  refine ⟨?_, ?_, ?_⟩
  · exact (go_version_override _ _).1 _ "1.21.3" rfl rfl rfl (by decide)
  · exact (go_version_override [] (some "/p")).2.1 rfl
  · exact (go_version_override _ _).2.2.2 _ "module m\n" rfl rfl (by decide)

/-- Membership form of `List.contains` for strings. -/
theorem contains_eq_true_iff (l : List String) (a : String) :
    l.contains a = true ↔ a ∈ l := by
  simp

/-- First satisfying entry of a descending-sorted statistics list is maximal
among satisfying entries. -/
theorem find_first_maximal (pred : String × LangStat → Bool)
    (stats : List (String × LangStat))
    (hsort : stats.Pairwise (fun a b => b.2.lines ≤ a.2.lines))
    (hex : ∃ p ∈ stats, pred p = true) :
    ∃ q, stats.find? pred = some q ∧ q ∈ stats ∧ pred q = true ∧
      ∀ r ∈ stats, pred r = true → r.2.lines ≤ q.2.lines := by
  induction stats with
  | nil => rcases hex with ⟨p, hp, _⟩; cases hp
  | cons x xs ih =>
    rcases List.pairwise_cons.1 hsort with ⟨hx, hxs⟩
    by_cases hpx : pred x = true
    · refine ⟨x, ?_, List.mem_cons_self _ _, hpx, ?_⟩
      · rw [List.find?_cons, hpx]
      · intro r hr _
        rcases List.mem_cons.1 hr with h | h
        · rw [h]
        · exact hx r h
    · have hex' : ∃ p ∈ xs, pred p = true := by
        rcases hex with ⟨p, hp, hpp⟩
        rcases List.mem_cons.1 hp with h | h
        · rw [h] at hpp; exact absurd hpp hpx
        · exact ⟨p, h, hpp⟩
      rcases ih hxs hex' with ⟨q, hfind, hmem, hq, hmax⟩
      refine ⟨q, ?_, List.mem_cons_of_mem _ hmem, hq, ?_⟩
      · rw [List.find?_cons]
        have : pred x = false := Bool.eq_false_iff.2 hpx
        rw [this]
        exact hfind
      · intro r hr hpr
        rcases List.mem_cons.1 hr with h | h
        · rw [h] at hpr; exact absurd hpr hpx
        · exact hmax r h hpr

/-- Claim C2: primary-language selection walks the statistics in descending
line-count order and returns the first language outside the exclusion set
`JSON, YAML, XML, Markdown, HTML, CSS`; if all present languages are
excluded it returns the most voluminous one; on an empty map it returns
`Unknown`; in particular `Markdown: 500, Go: 10` resolves to `Go`. -/
theorem primary_language_selection :
    (∀ stats : List (String × LangStat),
      stats.Pairwise (fun a b => b.2.lines ≤ a.2.lines) →
      ((stats = [] → detectPrimaryLanguage stats = "Unknown") ∧
       ((∃ p ∈ stats, p.1 ∉ excludeLanguages) →
         ∃ q ∈ stats, q.1 ∉ excludeLanguages ∧
           detectPrimaryLanguage stats = q.1 ∧
           ∀ r ∈ stats, r.1 ∉ excludeLanguages → r.2.lines ≤ q.2.lines) ∧
       (stats ≠ [] → (∀ p ∈ stats, p.1 ∈ excludeLanguages) →
         ∃ q ∈ stats, detectPrimaryLanguage stats = q.1 ∧
           ∀ r ∈ stats, r.2.lines ≤ q.2.lines))) ∧
    detectPrimaryLanguage
      [("Markdown", ⟨500, 98/10⟩), ("Go", ⟨10, 2/10⟩)] = "Go" := by
  constructor
  · intro stats hsort
    refine ⟨?_, ?_, ?_⟩
    · intro h; rw [h]; rfl
    · intro hex
      have hex' : ∃ p ∈ stats, (!(excludeLanguages.contains p.1)) = true := by
        rcases hex with ⟨p, hp, hpe⟩
        exact ⟨p, hp, by simp [hpe]⟩
      rcases find_first_maximal _ stats hsort hex' with ⟨q, hfind, hmem, hq, hmax⟩
      refine ⟨q, hmem, by simpa using hq, ?_, ?_⟩
      · match stats, hmem with
        | x :: xs, _ =>
          show (match (x :: xs).find?
              (fun p => !(excludeLanguages.contains p.1)) with
            | some p => p.1
            | none => x.1) = q.1
          rw [hfind]
      · intro r hr hre
        exact hmax r hr (by simp [hre])
    · intro hne hall
      match stats, hsort, hne with
      | x :: xs, hsort, _ =>
        rcases List.pairwise_cons.1 hsort with ⟨hx, _⟩
        have hfind : (x :: xs).find?
            (fun p => !(excludeLanguages.contains p.1)) = none := by
          rw [List.find?_eq_none]
          intro p hp
          simp [hall p hp]
        refine ⟨x, List.mem_cons_self _ _, ?_, ?_⟩
        · show (match (x :: xs).find?
              (fun p => !(excludeLanguages.contains p.1)) with
            | some p => p.1
            | none => x.1) = x.1
          rw [hfind]
        · intro r hr
          rcases List.mem_cons.1 hr with h | h
          · rw [h]
          · exact hx r h
  · rfl

/-- Witness for `primary_language_selection`: its general part applied to
the sorted map `Markdown: 500, Go: 10`, giving `Go` as the first
non-excluded language. -/
theorem primary_language_selection_witness :
    ∃ q ∈ [("Markdown", LangStat.mk 500 (98/10)), ("Go", LangStat.mk 10 (2/10))],
      q.1 ∉ excludeLanguages ∧
      detectPrimaryLanguage
        [("Markdown", LangStat.mk 500 (98/10)), ("Go", LangStat.mk 10 (2/10))] = q.1 ∧
      ∀ r ∈ [("Markdown", LangStat.mk 500 (98/10)), ("Go", LangStat.mk 10 (2/10))],
        r.1 ∉ excludeLanguages → r.2.lines ≤ q.2.lines :=
  ((primary_language_selection.1 _ (by
      refine List.pairwise_cons.2 ⟨?_, List.pairwise_singleton _ _⟩
      intro a ha
      rcases List.mem_singleton.1 ha with h
      rw [h]
      decide)).2.1
    ⟨("Go", LangStat.mk 10 (2/10)), by simp, by decide⟩)

/-- Claim C5: across all primary-language branches (the four first-class
ecosystems and the catch-all), every quality-stage job the synthesizer emits
— the `code-quality` job and the `sonarqube-check` job — carries the line
`allow_failure: true`. -/
theorem quality_jobs_allow_failure :
    ∀ (lang : String) (fw : List String),
      "  allow_failure: true".data ∈ splitLinesL (qualityJob lang fw).data ∧
      "  stage: quality".data ∈ splitLinesL (qualityJob lang fw).data ∧
      "  allow_failure: true".data ∈ splitLinesL (sonarqubeJob lang).data ∧
      "  stage: quality".data ∈ splitLinesL (sonarqubeJob lang).data := by
  intro lang fw
  unfold qualityJob sonarqubeJob
  split_ifs <;> exact ⟨by decide, by decide, by decide, by decide⟩

/-! Lemmas supporting the percentage-sum analysis (C3). -/

theorem insertS_perm (le : α → α → Bool) (a : α) (l : List α) :
    List.Perm (insertS le a l) (a :: l) := by
  induction l with
  | nil => exact List.Perm.refl _
  | cons b bs ih =>
    unfold insertS
    split
    · exact List.Perm.refl _
    · exact (List.Perm.cons b ih).trans (List.Perm.swap a b bs)

theorem insertionSort_perm (le : α → α → Bool) (l : List α) :
    List.Perm (insertionSort le l) l := by
  induction l with
  | nil => exact List.Perm.refl _
  | cons x xs ih =>
    unfold insertionSort
    exact (insertS_perm le x (insertionSort le xs)).trans (List.Perm.cons x ih)

theorem addLang_sum (a : List (String × Nat)) (lang : String) (n : Nat) :
    ((addLang a lang n).map (·.2)).sum = n + (a.map (·.2)).sum := by
  induction a with
  | nil => simp [addLang]
  | cons p rest ih =>
    rcases p with ⟨k, m⟩
    unfold addLang
    split
    · simp
      omega
    · simp [ih]
      omega

theorem langStep_inv (pd : Option String) (acc : List (String × Nat) × Nat)
    (r : FileRecord) (h : acc.2 = (acc.1.map (·.2)).sum) :
    (langStep pd acc r).2 = ((langStep pd acc r).1.map (·.2)).sum := by
  unfold langStep
  split
  · split
    · split
      · simp only [addLang_sum, h]
        omega
      · exact h
    · exact h
  · exact h

theorem langLines_sum (files : List FileRecord) (pd : Option String) :
    (langLinesAndTotal files pd).2 =
      (((langLinesAndTotal files pd).1).map (·.2)).sum := by
  unfold langLinesAndTotal
  have main : ∀ (fs : List FileRecord) (acc : List (String × Nat) × Nat),
      acc.2 = (acc.1.map (·.2)).sum →
      (fs.foldl (langStep pd) acc).2 =
        ((fs.foldl (langStep pd) acc).1.map (·.2)).sum := by
    intro fs
    induction fs with
    | nil => intro acc h; exact h
    | cons f rest ih =>
      intro acc h
      simp only [List.foldl_cons]
      exact ih _ (langStep_inv pd acc f h)
  exact main files ([], 0) (by simp)

theorem pctQ_bound (l T : Nat) (hT : 0 < T) :
    |pctQ l T - (l : ℚ) * (100 / T)| ≤ 1 / 20 := by
  have hTQ : (0 : ℚ) < T := by exact_mod_cast hT
  have hT' : (T : ℚ) ≠ 0 := ne_of_gt hTQ
  have hqr : T * (1000 * l / T) + 1000 * l % T = 1000 * l :=
    Nat.div_add_mod (1000 * l) T
  have hrT : 1000 * l % T < T := Nat.mod_lt _ hT
  have hqrQ : (T : ℚ) * (1000 * l / T : ℕ) + ((1000 * l % T : ℕ) : ℚ) =
      1000 * (l : ℚ) := by exact_mod_cast hqr
  have hrTQ : ((1000 * l % T : ℕ) : ℚ) < (T : ℚ) := by exact_mod_cast hrT
  have key : |(rheTenths l T : ℚ) * T - 1000 * l| ≤ T / 2 := by
    unfold rheTenths
    split_ifs with h1 h2 h3
    · have h1Q : 2 * ((1000 * l % T : ℕ) : ℚ) ≤ (T : ℚ) := by
        exact_mod_cast Nat.le_of_lt h1
      have : (((1000 * l) / T : ℕ) : ℚ) * T - 1000 * l =
          -(((1000 * l % T : ℕ) : ℚ)) := by linarith [hqrQ]
      rw [this, abs_neg, abs_of_nonneg (by positivity)]
      linarith
    · have h2Q : (T : ℚ) ≤ 2 * ((1000 * l % T : ℕ) : ℚ) := by
        exact_mod_cast Nat.le_of_lt h2
      have : (((1000 * l) / T + 1 : ℕ) : ℚ) * T - 1000 * l =
          (T : ℚ) - ((1000 * l % T : ℕ) : ℚ) := by push_cast; linarith [hqrQ]
      rw [this, abs_of_nonneg (by linarith)]
      linarith
    · have heq : 2 * (1000 * l % T) = T := by omega
      have heqQ : 2 * ((1000 * l % T : ℕ) : ℚ) = (T : ℚ) := by exact_mod_cast heq
      have : (((1000 * l) / T : ℕ) : ℚ) * T - 1000 * l =
          -(((1000 * l % T : ℕ) : ℚ)) := by linarith [hqrQ]
      rw [this, abs_neg, abs_of_nonneg (by positivity)]
      linarith
    · have heq : 2 * (1000 * l % T) = T := by omega
      have heqQ : 2 * ((1000 * l % T : ℕ) : ℚ) = (T : ℚ) := by exact_mod_cast heq
      have : (((1000 * l) / T + 1 : ℕ) : ℚ) * T - 1000 * l =
          (T : ℚ) - ((1000 * l % T : ℕ) : ℚ) := by push_cast; linarith [hqrQ]
      rw [this, abs_of_nonneg (by linarith)]
      linarith
  have hdiff : pctQ l T - (l : ℚ) * (100 / T) =
      ((rheTenths l T : ℚ) * T - 1000 * l) / (10 * T) := by
    unfold pctQ
    field_simp
    ring
  have h10T : (0 : ℚ) < 10 * (T : ℚ) := by linarith
  rw [hdiff, abs_div, abs_of_pos h10T, div_le_iff₀ h10T]
  calc |(rheTenths l T : ℚ) * T - 1000 * l| ≤ T / 2 := key
    _ = 1 / 20 * (10 * T) := by ring

theorem sum_abs_bound (l : List α) (f g : α → ℚ) (ε : ℚ)
    (h : ∀ a ∈ l, |f a - g a| ≤ ε) :
    |(l.map f).sum - (l.map g).sum| ≤ l.length * ε := by
  induction l with
  | nil => simp
  | cons x xs ih =>
    simp only [List.map_cons, List.sum_cons, List.length_cons]
    have h1 := h x (List.mem_cons_self _ _)
    have h2 := ih (fun a ha => h a (List.mem_cons_of_mem _ ha))
    calc |f x + (xs.map f).sum - (g x + (xs.map g).sum)|
        = |(f x - g x) + ((xs.map f).sum - (xs.map g).sum)| := by ring_nf
      _ ≤ |f x - g x| + |(xs.map f).sum - (xs.map g).sum| := abs_add _ _
      _ ≤ ε + xs.length * ε := add_le_add h1 h2
      _ = (xs.length + 1 : ℕ) * ε := by push_cast; ring

theorem sum_map_mul (ll : List (String × Nat)) (c : ℚ) :
    (ll.map (fun q => (q.2 : ℚ) * c)).sum = ((ll.map (·.2)).sum : ℕ) * c := by
  induction ll with
  | nil => simp
  | cons x xs ih =>
    simp only [List.map_cons, List.sum_cons, ih]
    push_cast
    ring

/-- Claim C3 (amended): the sum of the rounded percentages of a non-empty
statistics map deviates from 100 by at most 0.05 per present language —
`±0.5` holds only up to ten languages, not in general. -/
theorem percentage_sum_bound (files : List FileRecord) (pd : Option String)
    (h : countLinesByLanguage files pd ≠ []) :
    |sumPercentages (countLinesByLanguage files pd) - 100| ≤
      (countLinesByLanguage files pd).length * (1 / 20 : ℚ) := by
  by_cases hT : (langLinesAndTotal files pd).2 > 0
  case neg =>
    exfalso
    apply h
    unfold countLinesByLanguage
    rw [if_neg hT]
  case pos =>
    have hstats : countLinesByLanguage files pd =
        insertionSort (fun a b => decide (b.2.lines ≤ a.2.lines))
          ((langLinesAndTotal files pd).1.map
            (fun q => (q.1, LangStat.mk q.2 (pctQ q.2 (langLinesAndTotal files pd).2)))) := by
      unfold countLinesByLanguage
      rw [if_pos hT]
    set T := (langLinesAndTotal files pd).2 with hTdef
    set ll := (langLinesAndTotal files pd).1 with hlldef
    have hperm : List.Perm (countLinesByLanguage files pd)
        (ll.map (fun q => (q.1, LangStat.mk q.2 (pctQ q.2 T)))) := by
      rw [hstats]; exact insertionSort_perm _ _
    have hsum : sumPercentages (countLinesByLanguage files pd) =
        (ll.map (fun q => pctQ q.2 T)).sum := by
      unfold sumPercentages
      rw [(hperm.map (fun p => p.2.percentage)).sum_eq]
      rw [List.map_map]
      rfl
    have hlen : (countLinesByLanguage files pd).length = ll.length := by
      rw [hperm.length_eq, List.length_map]
    have hTsum : ((ll.map (·.2)).sum : ℕ) = T := (langLines_sum files pd).symm
    have hg : (ll.map (fun q => (q.2 : ℚ) * (100 / T))).sum = 100 := by
      rw [sum_map_mul, hTsum]
      have hT' : (T : ℚ) ≠ 0 := by
        have : (0 : ℚ) < T := by exact_mod_cast hT
        exact ne_of_gt this
      field_simp
    have hb := sum_abs_bound ll (fun q => pctQ q.2 T)
      (fun q => (q.2 : ℚ) * (100 / T)) (1 / 20)
      (fun q _ => pctQ_bound q.2 T hT)
    rw [hg] at hb
    rw [hsum, hlen]
    exact hb

/-- Witness for `percentage_sum_bound`: one Go file of one significant line
gives a non-empty statistics map, and the bound holds there. -/
theorem percentage_sum_bound_witness :
    countLinesByLanguage
      [{ name := "a.go", ftype := "file", extension := ".go", path := "/a.go",
         fullPath := some "/p/a.go", size := 1, text := some "x" }]
      (some "/p") ≠ [] ∧
    |sumPercentages (countLinesByLanguage
        [{ name := "a.go", ftype := "file", extension := ".go", path := "/a.go",
           fullPath := some "/p/a.go", size := 1, text := some "x" }]
        (some "/p")) - 100| ≤
      (countLinesByLanguage
        [{ name := "a.go", ftype := "file", extension := ".go", path := "/a.go",
           fullPath := some "/p/a.go", size := 1, text := some "x" }]
        (some "/p")).length * (1 / 20 : ℚ) := by
  have hne : countLinesByLanguage
      [{ name := "a.go", ftype := "file", extension := ".go", path := "/a.go",
         fullPath := some "/p/a.go", size := 1, text := some "x" }]
      (some "/p") ≠ [] := by
    have hlen : (countLinesByLanguage
        [{ name := "a.go", ftype := "file", extension := ".go", path := "/a.go",
           fullPath := some "/p/a.go", size := 1, text := some "x" }]
        (some "/p")).length = 1 := rfl
    intro heq
    rw [heq] at hlen
    cases hlen
  exact ⟨hne, percentage_sum_bound _ _ hne⟩

/-- Counterexample to claim C3 as stated: sixteen recognised languages of
one line each give sixteen percentages `round(100/16, 1) = 6.2` that sum to
99.2, which is not within 0.5 of 100. -/
theorem percentage_sum_counterexample :
    countLinesByLanguage sixteenLangFiles (some "/p") ≠ [] ∧
    sumPercentages (countLinesByLanguage sixteenLangFiles (some "/p")) = 496 / 5 ∧
    ¬ (|sumPercentages (countLinesByLanguage sixteenLangFiles (some "/p")) - 100| ≤
        1 / 2) := by
  have hstats : countLinesByLanguage sixteenLangFiles (some "/p") =
      [("JavaScript", LangStat.mk 1 (pctQ 1 16)),
       ("TypeScript", LangStat.mk 1 (pctQ 1 16)),
       ("Python", LangStat.mk 1 (pctQ 1 16)),
       ("Java", LangStat.mk 1 (pctQ 1 16)),
       ("Kotlin", LangStat.mk 1 (pctQ 1 16)),
       ("Go", LangStat.mk 1 (pctQ 1 16)),
       ("Rust", LangStat.mk 1 (pctQ 1 16)),
       ("C++", LangStat.mk 1 (pctQ 1 16)),
       ("C", LangStat.mk 1 (pctQ 1 16)),
       ("C/C++", LangStat.mk 1 (pctQ 1 16)),
       ("C#", LangStat.mk 1 (pctQ 1 16)),
       ("PHP", LangStat.mk 1 (pctQ 1 16)),
       ("Ruby", LangStat.mk 1 (pctQ 1 16)),
       ("Swift", LangStat.mk 1 (pctQ 1 16)),
       ("Scala", LangStat.mk 1 (pctQ 1 16)),
       ("Dart", LangStat.mk 1 (pctQ 1 16))] := rfl
  have hpct : pctQ 1 16 = 31 / 5 := by
    norm_num [pctQ, rheTenths]
  have hsum : sumPercentages (countLinesByLanguage sixteenLangFiles (some "/p")) =
      496 / 5 := by
    rw [hstats]
    unfold sumPercentages
    simp only [List.map_cons, List.map_nil, List.sum_cons, List.sum_nil]
    rw [hpct]
    norm_num
  refine ⟨?_, hsum, ?_⟩
  · rw [hstats]; simp
  · rw [hsum]
    intro hcontra
    have : |(496 / 5 : ℚ) - 100| = 4 / 5 := by
      have h1 : (496 / 5 : ℚ) - 100 = -(4 / 5) := by norm_num
      rw [h1, abs_neg, abs_of_pos (by norm_num)]
    rw [this] at hcontra
    norm_num at hcontra

/-! Lemmas relating the executable matchers to their declarative semantics (C9). -/

theorem isPre_iff (n : List Char) : ∀ h : List Char,
    n.isPrefixOf h = true ↔ n <+: h := by
  induction n with
  | nil =>
    intro h
    simp only [List.isPrefixOf]
    exact ⟨fun _ => ⟨h, rfl⟩, fun _ => trivial⟩
  | cons a as ih =>
    intro h
    cases h with
    | nil =>
      simp only [List.isPrefixOf]
      constructor
      · intro hfalse; cases hfalse
      · rintro ⟨t, ht⟩; cases ht
    | cons b bs =>
      simp only [List.isPrefixOf, Bool.and_eq_true, beq_iff_eq]
      constructor
      · rintro ⟨hab, hrest⟩
        rcases (ih bs).1 hrest with ⟨t, ht⟩
        exact ⟨t, by rw [hab, List.cons_append, ht]⟩
      · rintro ⟨t, ht⟩
        injection ht with h1 h2
        exact ⟨h1, (ih bs).2 ⟨t, h2⟩⟩

theorem isSuf_iff (n h : List Char) : n.isSuffixOf h = true ↔ n <:+ h := by
  simp only [List.isSuffixOf]
  rw [isPre_iff]
  constructor
  · rintro ⟨t, ht⟩
    refine ⟨t.reverse, ?_⟩
    have := congrArg List.reverse ht
    simpa [List.reverse_append] using this
  · rintro ⟨s, hs⟩
    refine ⟨s.reverse, ?_⟩
    rw [← hs, List.reverse_append]

theorem isInfixB_iff (n : List Char) : ∀ h : List Char,
    isInfixB n h = true ↔ n <:+: h := by
  intro h
  induction h with
  | nil =>
    simp only [isInfixB, List.isEmpty_iff]
    constructor
    · intro hn; subst hn; exact ⟨[], [], rfl⟩
    · rintro ⟨s, t, hst⟩
      rcases List.append_eq_nil.1 hst with ⟨h1, h2⟩
      exact (List.append_eq_nil.1 h1).2
  | cons c t ih =>
    simp only [isInfixB, Bool.or_eq_true]
    constructor
    · rintro (hp | hr)
      · rcases (isPre_iff n (c :: t)).1 hp with ⟨u, hu⟩
        exact ⟨[], u, by rw [List.nil_append, hu]⟩
      · rcases ih.1 hr with ⟨s, u, hsu⟩
        exact ⟨c :: s, u, by rw [List.cons_append, List.cons_append, hsu]⟩
    · rintro ⟨s, u, hsu⟩
      cases s with
      | nil =>
        left
        exact (isPre_iff n (c :: t)).2 ⟨u, by rw [← hsu, List.nil_append]⟩
      | cons c' s' =>
        right
        injection hsu with h1 h2
        exact ih.2 ⟨s', u, h2⟩

theorem noNL_iff (l : List Char) : noNL l = true ↔ '\n' ∉ l := by
  simp [noNL]

theorem check1_iff (sfx core : List Char) :
    check1 sfx core = true ↔ ∃ mid, core = mid ++ sfx ∧ '\n' ∉ mid := by
  unfold check1
  rw [Bool.and_eq_true, isSuf_iff, noNL_iff]
  constructor
  · rintro ⟨⟨mid, hmid⟩, hnl⟩
    refine ⟨mid, hmid.symm, ?_⟩
    have hl : core.length - sfx.length = mid.length := by
      rw [← hmid, List.length_append]; omega
    rw [hl, ← hmid, List.take_left] at hnl
    exact hnl
  · rintro ⟨mid, hmid, hnl⟩
    refine ⟨⟨mid, hmid.symm⟩, ?_⟩
    have hl : core.length - sfx.length = mid.length := by
      rw [hmid, List.length_append]; omega
    rw [hl, hmid, List.take_left]
    exact hnl

theorem matchPS_iff (pre sfx n : List Char) :
    matchPSb pre sfx n = true ↔ matchPS pre sfx n := by
  unfold matchPSb matchPS
  rw [Bool.and_eq_true, Bool.or_eq_true, isPre_iff, check1_iff, check1_iff]
  constructor
  · rintro ⟨⟨core, hcore⟩, hck⟩
    have hdrop : n.drop pre.length = core := by
      rw [← hcore, List.drop_left]
    rw [hdrop] at hck
    rcases hck with ⟨mid, hmid, hnl⟩ | ⟨mid, hmid, hnl⟩
    · exact ⟨mid, [], by rw [← hcore, hmid]; simp, hnl, Or.inl rfl⟩
    · exact ⟨mid, ['\n'], by rw [← hcore, hmid]; simp, hnl, Or.inr rfl⟩
  · rintro ⟨mid, t, hn, hnl, ht⟩
    have hcore : pre ++ (mid ++ sfx ++ t) = n := by rw [hn]; simp
    refine ⟨⟨mid ++ sfx ++ t, hcore⟩, ?_⟩
    have hdrop : n.drop pre.length = mid ++ sfx ++ t := by
      rw [← hcore, List.drop_left]
    rw [hdrop]
    rcases ht with h | h
    · exact Or.inl ⟨mid, by rw [h]; simp, hnl⟩
    · exact Or.inr ⟨mid, by rw [h]; simp, hnl⟩

theorem nameMatches_iff (name : String) :
    testPatternsMatch name = true ↔ nameMatchesRegex name := by
  unfold testPatternsMatch nameMatchesRegex
  rw [List.any_eq_true]
  constructor
  · rintro ⟨p, hp, hm⟩
    exact ⟨p, hp, (matchPS_iff _ _ _).1 hm⟩
  · rintro ⟨p, hp, hm⟩
    exact ⟨p, hp, (matchPS_iff _ _ _).2 hm⟩

theorem dirSignal_iff (path : String) :
    dirSignal path = true ↔ dirSignalProp path := by
  unfold dirSignal dirSignalProp
  rw [List.any_eq_true]
  constructor
  · rintro ⟨d, hd, hm⟩
    rw [Bool.or_eq_true] at hm
    rcases hm with h | h
    · exact ⟨d, hd, Or.inl ((isInfixB_iff _ _).1 h)⟩
    · exact ⟨d, hd, Or.inr ((isPre_iff _ _).1 h)⟩
  · rintro ⟨d, hd, hm⟩
    refine ⟨d, hd, ?_⟩
    rw [Bool.or_eq_true]
    rcases hm with h | h
    · exact Or.inl ((isInfixB_iff _ _).2 h)
    · exact Or.inr ((isPre_iff _ _).2 h)

/-- Claim C9 (amended): hasTests is true iff some record's filename matches
one of the fixed test-naming regexes, or some record's path contains `/d/`
for a conventional test-directory name `d`, or merely starts with the prefix
`/d` — the last signal also fires on names that only begin with `d`, so it
is weaker than containing `d` as a path component. -/
theorem has_tests_signals (files : List FileRecord) :
    checkTests files = true ↔
      ∃ r ∈ files, nameMatchesRegex r.name ∨ dirSignalProp r.path := by
  unfold checkTests
  rw [List.any_eq_true]
  constructor
  · rintro ⟨r, hr, hm⟩
    rw [Bool.or_eq_true] at hm
    rcases hm with h | h
    · exact ⟨r, hr, Or.inl ((nameMatches_iff _).1 h)⟩
    · exact ⟨r, hr, Or.inr ((dirSignal_iff _).1 h)⟩
  · rintro ⟨r, hr, hm⟩
    refine ⟨r, hr, ?_⟩
    rw [Bool.or_eq_true]
    rcases hm with h | h
    · exact Or.inl ((nameMatches_iff _).2 h)
    · exact Or.inr ((dirSignal_iff _).2 h)

/-- Counterexample to claim C9 as stated: `/testimony.txt` contains no
test-directory path component and its name matches no test-naming regex,
yet `_check_tests` returns true because the path starts with `/test`. -/
theorem has_tests_counterexample :
    checkTests [{ name := "testimony.txt", ftype := "file",
                  extension := ".txt", path := "/testimony.txt" }] = true ∧
    ¬ claimTestSignal [{ name := "testimony.txt", ftype := "file",
                         extension := ".txt", path := "/testimony.txt" }] := by
  constructor
  · decide
  · rintro ⟨r, hr, hcase⟩
    have hrr : r = { name := "testimony.txt", ftype := "file",
                     extension := ".txt", path := "/testimony.txt" } := by
      simpa using hr
    rw [hrr] at hcase
    rcases hcase with hname | ⟨d, hd, hmem⟩
    · exact absurd ((nameMatches_iff _).2 hname) (by decide)
    · have hall : ∀ d ∈ testDirectories,
          d ∉ pathComponents "/testimony.txt" := by decide
      exact hall d hd hmem

/-! Lemmas about line splitting, supporting the test-job analysis (C10). -/

theorem SL_ne_nil : ∀ l : List Char, splitLinesL l ≠ [] := by
  intro l
  cases l with
  | nil => simp [splitLinesL]
  | cons c cs =>
    unfold splitLinesL
    split <;> simp

theorem SL_singleton_nil : ∀ l : List Char, splitLinesL l = [[]] → l = [] := by
  intro l
  cases l with
  | nil => intro _; rfl
  | cons c cs =>
    unfold splitLinesL
    split
    · intro h
      injection h with h1 h2
      exact absurd h2 (SL_ne_nil cs)
    · intro h
      injection h with h1 h2
      simp at h1

theorem SL_append_clean : ∀ a b : List Char,
    (splitLinesL a).getLastD [] = [] →
    splitLinesL (a ++ b) = (splitLinesL a).dropLast ++ splitLinesL b := by
  intro a
  induction a with
  | nil =>
    intro b _
    simp [splitLinesL]
  | cons c cs ih =>
    intro b hcl
    obtain ⟨y, ys, hy⟩ : ∃ y ys, splitLinesL cs = y :: ys := by
      cases h : splitLinesL cs with
      | nil => exact absurd h (SL_ne_nil cs)
      | cons y ys => exact ⟨y, ys, rfl⟩
    by_cases hc : c = '\n'
    · subst hc
      have e1 : splitLinesL ('\n' :: cs) = [] :: splitLinesL cs := rfl
      have e2 : splitLinesL ('\n' :: (cs ++ b)) = [] :: splitLinesL (cs ++ b) := rfl
      have hcl' : (splitLinesL cs).getLastD [] = [] := by
        rw [e1, List.getLastD_cons] at hcl
        exact hcl
      rw [List.cons_append, e2, ih b hcl', e1, hy, List.dropLast_cons₂]
      simp
    · have e1 : splitLinesL (c :: cs) = (c :: y) :: ys := by
        simp only [splitLinesL, if_neg hc, hy, List.headD_cons, List.tail_cons]
      have e2 : splitLinesL (c :: (cs ++ b)) =
          (c :: (splitLinesL (cs ++ b)).headD []) :: (splitLinesL (cs ++ b)).tail := by
        simp only [splitLinesL, if_neg hc]
      rw [e1] at hcl
      cases ys with
      | nil =>
        exfalso
        rw [List.getLastD_cons] at hcl
        simp [List.getLastD] at hcl
      | cons z zs =>
        have hcl' : (splitLinesL cs).getLastD [] = [] := by
          rw [List.getLastD_cons, List.getLastD_cons] at hcl
          rw [hy, List.getLastD_cons, List.getLastD_cons]
          exact hcl
        have hrec := ih b hcl'
        rw [List.cons_append, e2, hrec, e1, hy]
        simp [List.dropLast_cons₂]

theorem cleanL_append : ∀ a b : List Char, (splitLinesL b).getLastD [] = [] →
    b ≠ [] → (splitLinesL (a ++ b)).getLastD [] = [] := by
  intro a
  induction a with
  | nil =>
    intro b hb _
    simpa using hb
  | cons c cs ih =>
    intro b hb hbne
    by_cases hc : c = '\n'
    · subst hc
      have e2 : splitLinesL ('\n' :: (cs ++ b)) = [] :: splitLinesL (cs ++ b) := rfl
      rw [List.cons_append, e2, List.getLastD_cons]
      exact ih b hb hbne
    · have e2 : splitLinesL (c :: (cs ++ b)) =
          (c :: (splitLinesL (cs ++ b)).headD []) :: (splitLinesL (cs ++ b)).tail := by
        simp only [splitLinesL, if_neg hc]
      rw [List.cons_append, e2]
      obtain ⟨y, ys, hy⟩ : ∃ y ys, splitLinesL (cs ++ b) = y :: ys := by
        cases h : splitLinesL (cs ++ b) with
        | nil => exact absurd h (SL_ne_nil _)
        | cons y ys => exact ⟨y, ys, rfl⟩
      have hthis := ih b hb hbne
      rw [hy] at hthis
      rw [hy]
      simp only [List.headD_cons, List.tail_cons]
      cases ys with
      | nil =>
        exfalso
        have hy0 : y = [] := by
          rw [List.getLastD_cons] at hthis
          simpa [List.getLastD] using hthis
        apply hbne
        have hnil : cs ++ b = [] := SL_singleton_nil _ (by rw [hy, hy0])
        exact (List.append_eq_nil.1 hnil).2
      | cons z zs =>
        rw [List.getLastD_cons, List.getLastD_cons]
        rw [List.getLastD_cons, List.getLastD_cons] at hthis
        exact hthis

theorem cleanEnd_append (a b : String) (hb : CleanEnd b) (hbne : b.data ≠ []) :
    CleanEnd (a ++ b) := by
  show (splitLinesL (a ++ b).data).getLastD [] = []
  rw [String.data_append]
  exact cleanL_append a.data b.data hb hbne

theorem segOk_append (a b : String) (ha : SegOk a) (hb : SegOk b) :
    SegOk (a ++ b) := by
  by_cases hbe : b.data = []
  · have hab : a ++ b = a := by
      apply String.ext
      rw [String.data_append, hbe, List.append_nil]
    rw [hab]
    exact ha
  · constructor
    · show "test:".data ∉ splitLinesL (a ++ b).data
      rw [String.data_append, SL_append_clean a.data b.data ha.2]
      intro hmem
      rcases List.mem_append.1 hmem with h | h
      · exact ha.1 (List.dropLast_subset _ h)
      · exact hb.1 h
    · exact cleanEnd_append a b hb.2 hbe

theorem segOk_ite (c : Prop) [Decidable c] (X : String) (hX : SegOk X) :
    SegOk (if c then X else "") := by
  split
  · exact hX
  · exact ⟨by decide, by decide⟩

theorem memSL_right (a b : String) (ha : CleanEnd a) {x : List Char}
    (h : x ∈ splitLinesL b.data) : x ∈ splitLinesL (a ++ b).data := by
  rw [String.data_append, SL_append_clean a.data b.data ha]
  exact List.mem_append_right _ h

theorem memSL_left_dropLast (a b : String) (ha : CleanEnd a) {x : List Char}
    (h : x ∈ (splitLinesL a.data).dropLast) : x ∈ splitLinesL (a ++ b).data := by
  rw [String.data_append, SL_append_clean a.data b.data ha]
  exact List.mem_append_left _ h

theorem SL_line : ∀ l : List Char, '\n' ∉ l →
    splitLinesL (l ++ ['\n']) = [l, []] := by
  intro l
  induction l with
  | nil => intro _; rfl
  | cons c cs ih =>
    intro hnl
    have hc : c ≠ '\n' := fun h => hnl (by rw [h]; exact List.mem_cons_self _ _)
    have hcs : '\n' ∉ cs := fun h => hnl (List.mem_cons_of_mem _ h)
    rw [List.cons_append]
    simp only [splitLinesL, if_neg hc]
    rw [ih hcs]
    rfl

theorem segOk_core (s : String) (l : List Char) (hs : s.data = l ++ ['\n'])
    (hnl : '\n' ∉ l) (hne : l.headD 'x' ≠ 't') : SegOk s := by
  constructor
  · show "test:".data ∉ splitLinesL s.data
    rw [hs, SL_line _ hnl]
    intro hmem
    rcases List.mem_cons.1 hmem with h | h
    · exact hne (by rw [← h]; decide)
    · exact absurd (List.mem_singleton.1 h) (by decide)
  · show (splitLinesL s.data).getLastD [] = []
    rw [hs, SL_line _ hnl]
    rfl

theorem notNL_append {a b : List Char} (ha : '\n' ∉ a) (hb : '\n' ∉ b) :
    '\n' ∉ a ++ b := by
  intro h
  rcases List.mem_append.1 h with h | h
  exacts [ha h, hb h]

theorem headD_append_ne (a rest : List Char) (hane : a ≠ []) :
    (a ++ rest).headD 'x' = a.headD 'x' := by
  cases a with
  | nil => exact absurd rfl hane
  | cons c t => rfl

theorem segOk_cat2 (a p : String) (hna : '\n' ∉ a.data) (hnp : '\n' ∉ p.data)
    (hane : a.data ≠ []) (hah : a.data.headD 'x' ≠ 't') :
    SegOk (a ++ p ++ "\n") := by
  apply segOk_core _ (a.data ++ p.data)
  · rw [String.data_append, String.data_append]
  · exact notNL_append hna hnp
  · rw [headD_append_ne _ _ hane]
    exact hah

theorem segOk_cat3 (a p b : String) (hna : '\n' ∉ a.data) (hnp : '\n' ∉ p.data)
    (hnb : '\n' ∉ b.data) (hane : a.data ≠ []) (hah : a.data.headD 'x' ≠ 't') :
    SegOk (a ++ p ++ b ++ "\n") := by
  apply segOk_core _ ((a.data ++ p.data) ++ b.data)
  · rw [String.data_append, String.data_append, String.data_append]
  · exact notNL_append (notNL_append hna hnp) hnb
  · rw [headD_append_ne _ _ (List.append_ne_nil_of_left_ne_nil hane p.data),
      headD_append_ne _ _ hane]
    exact hah

theorem segOk_cat6 (a p b q c e : String) (hna : '\n' ∉ a.data)
    (hnp : '\n' ∉ p.data) (hnb : '\n' ∉ b.data) (hnq : '\n' ∉ q.data)
    (hnc : '\n' ∉ c.data) (hnee : '\n' ∉ e.data)
    (hane : a.data ≠ []) (hah : a.data.headD 'x' ≠ 't') :
    SegOk (a ++ p ++ b ++ q ++ c ++ e ++ "\n") := by
  have h1 := List.append_ne_nil_of_left_ne_nil hane p.data
  have h2 := List.append_ne_nil_of_left_ne_nil h1 b.data
  have h3 := List.append_ne_nil_of_left_ne_nil h2 q.data
  have h4 := List.append_ne_nil_of_left_ne_nil h3 c.data
  apply segOk_core _ (((((a.data ++ p.data) ++ b.data) ++ q.data) ++ c.data) ++ e.data)
  · rw [String.data_append, String.data_append, String.data_append,
      String.data_append, String.data_append, String.data_append]
  · exact notNL_append (notNL_append (notNL_append (notNL_append
      (notNL_append hna hnp) hnb) hnq) hnc) hnee
  · rw [headD_append_ne _ _ h4, headD_append_ne _ _ h3, headD_append_ne _ _ h2,
      headD_append_ne _ _ h1, headD_append_ne _ _ hane]
    exact hah

theorem segOk_app_line (X L : String) (hX : SegOk X) (hL : SegOk (L ++ "\n")) :
    SegOk (X ++ L ++ "\n") := by
  rw [String.append_assoc]
  exact segOk_append _ _ hX hL

theorem cleanEnd_append2 (a b : String) (ha : CleanEnd a) (hb : CleanEnd b) :
    CleanEnd (a ++ b) := by
  by_cases hbe : b.data = []
  · have hab : a ++ b = a := by
      apply String.ext
      rw [String.data_append, hbe, List.append_nil]
    rw [hab]
    exact ha
  · exact cleanEnd_append a b hb hbe

theorem cleanEnd_ite (c : Prop) [Decidable c] (X : String) (hX : CleanEnd X) :
    CleanEnd (if c then X else "") := by
  split
  · exact hX
  · decide

theorem memDL_left (a b : String) (ha : CleanEnd a) {x : List Char}
    (h : x ∈ (splitLinesL a.data).dropLast) :
    x ∈ (splitLinesL (a ++ b).data).dropLast := by
  rw [String.data_append, SL_append_clean a.data b.data ha,
    List.dropLast_append_of_ne_nil _ (SL_ne_nil _)]
  exact List.mem_append_left _ h

theorem memDL_right (a b : String) (ha : CleanEnd a) {x : List Char}
    (h : x ∈ (splitLinesL b.data).dropLast) :
    x ∈ (splitLinesL (a ++ b).data).dropLast := by
  rw [String.data_append, SL_append_clean a.data b.data ha,
    List.dropLast_append_of_ne_nil _ (SL_ne_nil _)]
  exact List.mem_append_right _ h

theorem asciiLower_eq_nl {c : Char} (h : asciiLower c = '\n') : c = '\n' := by
  unfold asciiLower at h
  cases hf : asciiLowerPairs.find? (fun p => p.1 = c) with
  | none => rw [hf] at h; exact h
  | some p =>
    rw [hf] at h
    exfalso
    have hp : p ∈ asciiLowerPairs := List.mem_of_find?_eq_some hf
    have hall : ∀ q ∈ asciiLowerPairs, q.2 ≠ '\n' := by decide
    exact hall p hp h

theorem pyLower_noNL (s : String) (h : '\n' ∉ s.data) :
    '\n' ∉ (pyLower s).data := by
  show '\n' ∉ pyLowerL s.data
  unfold pyLowerL
  intro hmem
  rcases List.mem_map.1 hmem with ⟨c, hc, hceq⟩
  exact h (by rwa [asciiLower_eq_nl hceq] at hc)

theorem segOk_stagesY (d : Bool) : SegOk (yamlStages (stagesList d)) := by
  cases d <;> decide

theorem segOk_varsY (lang : String) (fw : List String) (vi : VersionInfo) :
    SegOk (yamlVariables (getDockerImageAndVariables lang fw vi).2) := by
  unfold getDockerImageAndVariables
  dsimp only
  split_ifs <;> dsimp only <;> decide

theorem segOk_imageY (lang : String) (fw : List String) (vi : VersionInfo)
    (hv : '\n' ∉ vi.languageVersion.data) :
    SegOk ("image: " ++ (getDockerImageAndVariables lang fw vi).1 ++ "\n") := by
  unfold getDockerImageAndVariables
  dsimp only
  split_ifs <;> dsimp only <;>
    first
      | decide
      | (refine segOk_cat2 _ _ (by decide) ?_ (by decide) (by decide)
         simp only [String.data_append]
         repeat' first | exact hv | apply notNL_append | decide)

theorem segOk_cacheY (lang : String) : SegOk (yamlCache (cachePaths lang)) := by
  unfold cachePaths
  split_ifs <;> decide

theorem segOk_beforeY (lang : String) (tools fw : List String) :
    SegOk (yamlBeforeScript (beforeScript lang tools fw)) := by
  unfold beforeScript
  split_ifs <;> decide

theorem segOk_buildJ (lang : String) (tools fw : List String) :
    SegOk (buildJob lang tools fw) := by
  unfold buildJob
  dsimp only
  split_ifs <;> decide

theorem segOk_qualityJ (lang : String) (fw : List String) :
    SegOk (qualityJob lang fw) := by
  unfold qualityJob
  split_ifs <;> decide

theorem segOk_sonarJ (lang : String) : SegOk (sonarqubeJob lang) := by
  unfold sonarqubeJob
  decide

theorem segOk_packageJ (lang : String) (fw : List String) :
    SegOk (packageJob lang fw) := by
  unfold packageJob
  decide

theorem segOk_nexusJ (lang : String) : SegOk (nexusUploadJob lang) := by
  unfold nexusUploadJob
  decide

theorem testJ_props (lang : String) (tools fw : List String) :
    "test:".data ∈ (splitLinesL (testJob lang tools fw).data).dropLast ∧
      CleanEnd (testJob lang tools fw) := by
  unfold testJob
  dsimp only
  split_ifs <;> exact ⟨by decide, by decide⟩

theorem segOk_dockerJ (repoName : String) (hr : '\n' ∉ repoName.data) :
    SegOk (dockerBuildJob repoName) := by
  have hrl : '\n' ∉ (pyLower repoName).data := pyLower_noNL repoName hr
  unfold dockerBuildJob
  dsimp only
  apply segOk_append
  · apply segOk_app_line
    · apply segOk_append
      · apply segOk_app_line
        · apply segOk_append
          · apply segOk_app_line
            · decide
            · exact segOk_cat3 _ _ _ (by decide) hrl (by decide) (by decide)
                (by decide)
          · decide
        · exact segOk_cat3 _ _ _ (by decide) hrl (by decide) (by decide)
            (by decide)
      · decide
    · exact segOk_cat3 _ _ _ (by decide) hrl (by decide) (by decide) (by decide)
  · decide

theorem segOk_scanJ (repoName : String) (hr : '\n' ∉ repoName.data) :
    SegOk (dockerSecurityScanJob repoName) := by
  have hrl : '\n' ∉ (pyLower repoName).data := pyLower_noNL repoName hr
  unfold dockerSecurityScanJob
  dsimp only
  apply segOk_append
  · apply segOk_app_line
    · decide
    · exact segOk_cat3 _ _ _ (by decide) hrl (by decide) (by decide) (by decide)
  · decide

theorem segOk_deployJ (repoName : String) (hd : Bool) (hr : '\n' ∉ repoName.data) :
    SegOk (deploymentJobs repoName hd) := by
  have hrl : '\n' ∉ (pyLower repoName).data := pyLower_noNL repoName hr
  unfold deploymentJobs
  dsimp only
  apply segOk_append
  · apply segOk_app_line
    · apply segOk_append
      · apply segOk_app_line
        · apply segOk_app_line
          · apply segOk_app_line
            · apply segOk_append
              · apply segOk_app_line
                · apply segOk_append
                  · apply segOk_app_line
                    · apply segOk_app_line
                      · apply segOk_app_line
                        · decide
                        · exact segOk_cat3 _ _ _ (by decide)
                            (by split <;> decide) (by decide) (by decide)
                            (by decide)
                      · exact segOk_cat6 _ _ _ _ _ _ (by decide) hrl (by decide)
                          hrl (by decide)
                          (by split
                              · simp only [String.data_append]
                                exact notNL_append (notNL_append (by decide) hrl)
                                  (by decide)
                              · decide)
                          (by decide) (by decide)
                    · exact segOk_cat2 _ _ (by decide) hrl (by decide) (by decide)
                  · decide
                · exact segOk_cat3 _ _ _ (by decide) hrl (by decide) (by decide)
                    (by decide)
              · decide
            · exact segOk_cat3 _ _ _ (by decide) (by split <;> decide) (by decide)
                (by decide) (by decide)
          · exact segOk_cat6 _ _ _ _ _ _ (by decide) hrl (by decide) hrl
              (by decide)
              (by split
                  · simp only [String.data_append]
                    exact notNL_append (notNL_append (by decide) hrl) (by decide)
                  · decide)
              (by decide) (by decide)
        · exact segOk_cat2 _ _ (by decide) hrl (by decide) (by decide)
      · decide
    · exact segOk_cat3 _ _ _ (by decide) hrl (by decide) (by decide) (by decide)
  · decide

/-- **C10.** For every technology profile, the synthesized pipeline text
contains a job named `test` (a line `test:`) if and only if the profile's
`hasTests` flag is true, while the stage name `test` is unconditionally
present in the stages list (so with `hasTests = false` the `test` stage
contains no job).  The repository name and the language version are assumed
newline-free, as they are for every name and version the analyzer can
produce. -/
theorem test_job_iff_has_tests (sonar nexus : Bool) (ts : TechStack)
    (repoName : String) (hr : '\n' ∉ repoName.data)
    (hv : '\n' ∉ ts.versionInfo.languageVersion.data) :
    (hasLine (generateGitlabPipeline sonar nexus ts repoName) "test:" ↔
      ts.hasTests = true) ∧ "test" ∈ stagesList ts.hasDockerfile := by
  obtain ⟨pl, stats, vi, fw, bt, pm, hT, hdock⟩ := ts
  constructor
  · cases hT with
    | false =>
      apply iff_of_false
      · have hseg : SegOk (generateGitlabPipeline sonar nexus
            ⟨pl, stats, vi, fw, bt, pm, false, hdock⟩ repoName) := by
          unfold generateGitlabPipeline
          dsimp only
          rw [if_neg Bool.false_ne_true]
          have e1 := segOk_stagesY hdock
          have e2 := segOk_varsY pl fw vi
          have e3 := segOk_imageY pl fw vi hv
          have e4 := segOk_cacheY pl
          have e5 := segOk_beforeY pl bt fw
          have e6 : SegOk ("\n# ==================== BUILD STAGE ====================\n" : String) := by decide
          have e7 := segOk_buildJ pl bt fw
          have e8 : SegOk ("" : String) := by decide
          have e9 : SegOk ("\n# ==================== CODE QUALITY STAGE ====================\n" : String) := by decide
          have e10 := segOk_qualityJ pl fw
          have e11 := segOk_ite (sonar = true) _
            (segOk_append _ _ (by decide : SegOk ("\n# SonarQube анализ\n" : String)) (segOk_sonarJ pl))
          have e12 : SegOk ("\n# ==================== PACKAGE STAGE ====================\n" : String) := by decide
          have e13 := segOk_packageJ pl fw
          have e14 := segOk_ite (nexus = true) _
            (segOk_append _ _ (by decide : SegOk ("\n# Загрузка артефактов в Nexus\n" : String)) (segOk_nexusJ pl))
          have e15 := segOk_ite (hdock = true) _
            (segOk_append _ _
              (segOk_append _ _
                (segOk_append _ _
                  (by decide : SegOk ("\n# ==================== DOCKER BUILD STAGE ====================\n" : String))
                  (segOk_dockerJ repoName hr))
                (by decide : SegOk ("\n# Docker Security Scan\n" : String)))
              (segOk_scanJ repoName hr))
          have e16 : SegOk ("\n# ==================== DEPLOYMENT STAGES ====================\n" : String) := by decide
          have m2 := segOk_append _ _ e1 e2
          have m3 := segOk_append _ _ m2 e3
          have m4 := segOk_append _ _ m3 e4
          have m5 := segOk_append _ _ m4 e5
          have m6 := segOk_append _ _ m5 e6
          have m7 := segOk_append _ _ m6 e7
          have m8 := segOk_append _ _ m7 e8
          have m9 := segOk_append _ _ m8 e9
          have m10 := segOk_append _ _ m9 e10
          have m11 := segOk_append _ _ m10 e11
          have m12 := segOk_append _ _ m11 e12
          have m13 := segOk_append _ _ m12 e13
          have m14 := segOk_append _ _ m13 e14
          have m15 := segOk_append _ _ m14 e15
          have m16 := segOk_append _ _ m15 e16
          exact segOk_append _ _ m16 (segOk_deployJ repoName hdock hr)
        exact fun hmem => hseg.1 hmem
      · exact Bool.false_ne_true
    | true =>
      apply iff_of_true
      · show "test:".data ∈ splitLinesL
          (generateGitlabPipeline sonar nexus
            ⟨pl, stats, vi, fw, bt, pm, true, hdock⟩ repoName).data
        unfold generateGitlabPipeline
        dsimp only
        rw [if_pos (rfl : true = true)]
        have e1 := segOk_stagesY hdock
        have e2 := segOk_varsY pl fw vi
        have e3 := segOk_imageY pl fw vi hv
        have e4 := segOk_cacheY pl
        have e5 := segOk_beforeY pl bt fw
        have e6 : SegOk ("\n# ==================== BUILD STAGE ====================\n" : String) := by decide
        have e7 := segOk_buildJ pl bt fw
        have e8 : CleanEnd ("\n# ==================== TEST STAGE ====================\n" ++ testJob pl bt fw) :=
          cleanEnd_append2 _ _ (by decide) (testJ_props pl bt fw).2
        have e9 : SegOk ("\n# ==================== CODE QUALITY STAGE ====================\n" : String) := by decide
        have e10 := segOk_qualityJ pl fw
        have e11 := cleanEnd_ite (sonar = true) _
          (cleanEnd_append2 _ _ (by decide : CleanEnd ("\n# SonarQube анализ\n" : String)) (segOk_sonarJ pl).2)
        have e12 : SegOk ("\n# ==================== PACKAGE STAGE ====================\n" : String) := by decide
        have e13 := segOk_packageJ pl fw
        have e14 := cleanEnd_ite (nexus = true) _
          (cleanEnd_append2 _ _ (by decide : CleanEnd ("\n# Загрузка артефактов в Nexus\n" : String)) (segOk_nexusJ pl).2)
        have e15 := cleanEnd_ite (hdock = true) _
          (cleanEnd_append2 _ _
            (cleanEnd_append2 _ _
              (cleanEnd_append2 _ _
                (by decide : CleanEnd ("\n# ==================== DOCKER BUILD STAGE ====================\n" : String))
                (segOk_dockerJ repoName hr).2)
              (by decide : CleanEnd ("\n# Docker Security Scan\n" : String)))
            (segOk_scanJ repoName hr).2)
        have e16 : SegOk ("\n# ==================== DEPLOYMENT STAGES ====================\n" : String) := by decide
        have k2 := cleanEnd_append2 _ _ e1.2 e2.2
        have k3 := cleanEnd_append2 _ _ k2 e3.2
        have k4 := cleanEnd_append2 _ _ k3 e4.2
        have k5 := cleanEnd_append2 _ _ k4 e5.2
        have k6 := cleanEnd_append2 _ _ k5 e6.2
        have k7 := cleanEnd_append2 _ _ k6 e7.2
        have k8 := cleanEnd_append2 _ _ k7 e8
        have k9 := cleanEnd_append2 _ _ k8 e9.2
        have k10 := cleanEnd_append2 _ _ k9 e10.2
        have k11 := cleanEnd_append2 _ _ k10 e11
        have k12 := cleanEnd_append2 _ _ k11 e12.2
        have k13 := cleanEnd_append2 _ _ k12 e13.2
        have k14 := cleanEnd_append2 _ _ k13 e14
        have k15 := cleanEnd_append2 _ _ k14 e15
        have k16 := cleanEnd_append2 _ _ k15 e16.2
        exact memSL_left_dropLast _ _ k16
          (memDL_left _ _ k15
            (memDL_left _ _ k14
              (memDL_left _ _ k13
                (memDL_left _ _ k12
                  (memDL_left _ _ k11
                    (memDL_left _ _ k10
                      (memDL_left _ _ k9
                        (memDL_left _ _ k8
                          (memDL_right _ _ k7
                            (memDL_right _ _
                              (by decide : CleanEnd ("\n# ==================== TEST STAGE ====================\n" : String))
                              (testJ_props pl bt fw).1))))))))))
      · rfl
  · cases hdock <;> dsimp only <;> decide

/-- Closed instance of `test_job_iff_has_tests`: a Go profile with tests and
no Dockerfile, repository name `app`. -/
theorem test_job_iff_has_tests_witness :
    ((hasLine (generateGitlabPipeline true true
        ⟨"Go", [], ⟨"1.19", []⟩, [], ["go"], ["go"], true, false⟩ "app") "test:" ↔
      (true : Bool) = true) ∧ "test" ∈ stagesList false) :=
  test_job_iff_has_tests true true
    ⟨"Go", [], ⟨"1.19", []⟩, [], ["go"], ["go"], true, false⟩ "app"
    (by decide) (by decide)

end SelfDeploy
